import Mathlib

/-!
# Verification of the tsurf browsing session engine

A shallow embedding, in Lean 4, of the core of the `tsurf` terminal browser:
the per-tab navigation history (`internal/browser/history.go`), URL
normalization and fetching (`internal/browser/extractor.go`, fetch part),
the content transformer with its primary (`Render`) and fallback
(`RenderFallback`) paths, and the session controller (`internal/app`,
bubbletea `Model`).  Go slices become Lean lists, Go `int` cursors become
`Int`, byte slices become `List (Fin 256)`-free `List Nat` byte values kept
abstract, and the stateful converters thread an explicit state value.
-/

namespace Tsurf

/-! ## Navigation history (`internal/browser/history.go`)

The Go struct `History` holds `entries []string` and `pos int`; `pos` is
`-1` for the empty history.  Mutating methods are embedded as functions
returning the updated `History` (together with the Go return values).
-/

/-- `History` from `history.go`: an entries slice and an `int` cursor. -/
structure History where
  entries : List String
  pos : Int
deriving Repr, DecidableEq

/-- `NewHistory` creates an empty navigation history (`pos = -1`). -/
def newHistory : History := { entries := [], pos := -1 }

/-- `(*History).Push`: truncate any forward entries, append, move cursor to
the end. `entries[:pos+1]` is `take (pos+1)`. -/
def History.push (h : History) (url : String) : History :=
  let entries :=
    if h.pos < (h.entries.length : Int) - 1 then
      h.entries.take (h.pos + 1).toNat
    else
      h.entries
  let entries := entries ++ [url]
  { entries := entries, pos := (entries.length : Int) - 1 }

/-- `(*History).Back`: returns `(url, ok)` and the updated history.
When `pos ≤ 0` the history is unchanged and `ok = false`. -/
def History.back (h : History) : String × Bool × History :=
  if h.pos ≤ 0 then ("", false, h)
  else
    let pos := h.pos - 1
    (h.entries.getD pos.toNat "", true, { h with pos := pos })

/-- `(*History).Forward`: returns `(url, ok)` and the updated history. -/
def History.forward (h : History) : String × Bool × History :=
  if h.pos ≥ (h.entries.length : Int) - 1 then ("", false, h)
  else
    let pos := h.pos + 1
    (h.entries.getD pos.toNat "", true, { h with pos := pos })

/-- `(*History).Current`: the cursor's URL, or `""` out of range. -/
def History.current (h : History) : String :=
  if h.pos < 0 ∨ h.pos ≥ (h.entries.length : Int) then ""
  else h.entries.getD h.pos.toNat ""

/-- `(*History).CanGoBack`. -/
def History.canGoBack (h : History) : Bool := h.pos > 0

/-- `(*History).CanGoForward`. -/
def History.canGoForward (h : History) : Bool :=
  h.pos < (h.entries.length : Int) - 1

/-- `(*History).Len`. -/
def History.len (h : History) : Nat := h.entries.length

/-- `(*History).Clear`. -/
def History.clear (_h : History) : History := { entries := [], pos := -1 }

/-- The §3 invariant: the cursor is a valid index into the entries
sequence, or `-1` iff the sequence is empty. -/
def History.Inv (h : History) : Prop :=
  (h.entries = [] ∧ h.pos = -1) ∨
  (h.entries ≠ [] ∧ 0 ≤ h.pos ∧ h.pos < (h.entries.length : Int))

instance (h : History) : Decidable h.Inv := by
  unfold History.Inv; infer_instance

/-- Histories reachable from `NewHistory` by the mutating operations
(`Push`, `Back`, `Forward`, `Clear`; the read-only operations `Current`,
`CanGoBack`, `CanGoForward`, `Len` do not change the state). -/
inductive History.Reachable : History → Prop
  | new : History.Reachable newHistory
  | push (h : History) (url : String) :
      History.Reachable h → History.Reachable (h.push url)
  | back (h : History) :
      History.Reachable h → History.Reachable h.back.2.2
  | forward (h : History) :
      History.Reachable h → History.Reachable h.forward.2.2
  | clear (h : History) :
      History.Reachable h → History.Reachable h.clear

lemma History.inv_new : History.Inv newHistory := by
  simp [History.Inv, newHistory]

lemma History.inv_push (h : History) (url : String) (hh : h.Inv) :
    (h.push url).Inv := by
  rcases hh with ⟨he, hp⟩ | ⟨hne, h0, hlt⟩
  · simp [History.push, History.Inv, he, hp]
  · simp only [History.push, History.Inv]
    split
    · right
      simp only [List.append_ne_nil_of_right_ne_nil, List.length_append,
        List.length_take, List.length_cons, List.length_nil, ne_eq]
      refine ⟨by simp, by omega, by push_cast; omega⟩
    · right
      simp only [List.length_append, List.length_cons, List.length_nil, ne_eq]
      refine ⟨by simp, by omega, by push_cast; omega⟩

lemma History.inv_back (h : History) (hh : h.Inv) : h.back.2.2.Inv := by
  rcases hh with ⟨he, hp⟩ | ⟨hne, h0, hlt⟩
  · simp [History.back, History.Inv, he, hp]
  · simp only [History.back, History.Inv]
    split
    · right; exact ⟨hne, h0, hlt⟩
    · right; refine ⟨hne, ?_, ?_⟩ <;> simp <;> omega

lemma History.inv_forward (h : History) (hh : h.Inv) : h.forward.2.2.Inv := by
  rcases hh with ⟨he, hp⟩ | ⟨hne, h0, hlt⟩
  · simp only [History.forward, History.Inv]
    split
    · left; exact ⟨he, hp⟩
    · exfalso
      simp [he] at *
      omega
  · simp only [History.forward, History.Inv]
    split
    · right; exact ⟨hne, h0, hlt⟩
    · right; refine ⟨hne, ?_, ?_⟩ <;> simp <;> omega

lemma History.inv_clear (h : History) : h.clear.Inv := by
  simp [History.clear, History.Inv]

/-- **C8.** Every `History` operation (`Push`, `Back`, `Forward`, `Clear`,
and trivially the read-only `Current`, `CanGoBack`, `CanGoForward`, `Len`)
preserves the invariant that the cursor is a valid index into the entries
sequence, or `-1` iff the sequence is empty, starting from the empty
history produced by `NewHistory`: every reachable history satisfies the
invariant. -/
theorem history_reachable_inv (h : History) (hr : History.Reachable h) :
    h.Inv := by
  induction hr with
  | new => exact History.inv_new
  | push h url _ ih => exact History.inv_push h url ih
  | back h _ ih => exact History.inv_back h ih
  | forward h _ ih => exact History.inv_forward h ih
  | clear h _ => exact History.inv_clear h

/-- Witness for `history_reachable_inv` at the concrete history
`newHistory.push "a"`. -/
theorem history_reachable_inv_witness :
    (newHistory.push "a").Inv :=
  history_reachable_inv (newHistory.push "a")
    (History.Reachable.push _ _ History.Reachable.new)

/-- **C7.** On any history satisfying the invariant: a `Back()` that
returns `ok` followed immediately by `Forward()` restores the prior
`Current()` value; and `Push` while the cursor is not at the end first
discards every entry after the cursor before appending (so no forward
fork is retained, and the new history cannot go forward). -/
theorem history_back_forward_push (h : History) (hinv : h.Inv) (u : String) :
    (h.back.2.1 = true → h.back.2.2.forward.2.2.current = h.current) ∧
    (h.pos < (h.entries.length : Int) - 1 →
      (h.push u).entries = h.entries.take (h.pos + 1).toNat ++ [u] ∧
      (h.push u).canGoForward = false) := by
  constructor
  · intro hok
    rcases hinv with ⟨he, hp⟩ | ⟨hne, h0, hlt⟩
    · simp [History.back, he, hp] at hok
    · by_cases hpos : h.pos ≤ 0
      · simp [History.back, hpos] at hok
      · have h1 : h.back.2.2 = { h with pos := h.pos - 1 } := by
          simp [History.back, hpos]
        have h2 : h.back.2.2.forward.2.2 = h := by
          rw [h1]
          simp only [History.forward]
          split
          · rename_i hc
            have hc' : h.pos - 1 ≥ (h.entries.length : Int) - 1 := hc
            omega
          · have hp1 : h.pos - 1 + 1 = h.pos := by omega
            simp [hp1]
        rw [h2]
  · intro hlt
    constructor
    · simp [History.push, hlt]
    · simp [History.push, History.canGoForward, hlt]

/-- Witness for `history_back_forward_push`: on the concrete history
`((newHistory.push "a").push "b")` after one `Back`, both conjuncts are
discharged at their hypotheses. -/
theorem history_back_forward_push_witness :
    ((((newHistory.push "a").push "b").back.2.2.back.2.1 = true →
      (((newHistory.push "a").push "b").back.2.2).back.2.2.forward.2.2.current =
        (((newHistory.push "a").push "b").back.2.2).current) ∧
     ((((newHistory.push "a").push "b").back.2.2).pos <
        ((((newHistory.push "a").push "b").back.2.2).entries.length : Int) - 1 →
      ((((newHistory.push "a").push "b").back.2.2).push "c").entries =
        (((newHistory.push "a").push "b").back.2.2).entries.take
          ((((newHistory.push "a").push "b").back.2.2).pos + 1).toNat ++ ["c"] ∧
      ((((newHistory.push "a").push "b").back.2.2).push "c").canGoForward = false)) :=
  history_back_forward_push (((newHistory.push "a").push "b").back.2.2)
    (by decide) "c"

/-! ## URL normalization (`internal/browser/extractor.go`, `normalizeURL`)

`normalizeURL` trims the input with Go's `strings.TrimSpace`
(`unicode.IsSpace` whitespace), keeps inputs that already carry a scheme,
prefixes `https://` for domain-shaped inputs, and otherwise rewrites the
input into a DuckDuckGo search URL using `url.QueryEscape`.
-/

/-- Go `unicode.IsSpace`: `\t \n \v \f \r ' '`, `U+0085`, `U+00A0`, and the
Unicode `White_Space` code points. -/
def goIsSpace (c : Char) : Bool :=
  let n := c.toNat
  (9 ≤ n ∧ n ≤ 13) ∨ n = 32 ∨ n = 0x85 ∨ n = 0xA0 ∨
  n = 0x1680 ∨ (0x2000 ≤ n ∧ n ≤ 0x200A) ∨
  n = 0x2028 ∨ n = 0x2029 ∨ n = 0x202F ∨ n = 0x205F ∨ n = 0x3000

/-- Go `strings.TrimSpace`: strip leading and trailing whitespace. -/
def goTrimSpace (s : String) : String :=
  String.mk (((s.toList.dropWhile goIsSpace).reverse.dropWhile goIsSpace).reverse)

/-- Go `strings.Contains(s, string(c))` for a single-character needle:
membership of the character in the string. -/
def containsChar (s : String) (c : Char) : Bool := s.toList.contains c

/-- `listStarts l p`: `p` is an initial segment of `l` (character lists). -/
def listStarts : List Char → List Char → Bool
  | _, [] => true
  | [], _ :: _ => false
  | c :: cs, p :: ps => c = p && listStarts cs ps

/-- Go `strings.HasPrefix`. -/
def strStarts (s pre : String) : Bool := listStarts s.toList pre.toList

/-- UTF-8 encoding of one character (byte values as `Nat`), as performed
by Go when indexing the bytes of a string. -/
def utf8EncodeChar (c : Char) : List Nat :=
  let v := c.toNat
  if v < 0x80 then [v]
  else if v < 0x800 then
    [0xC0 ||| (v >>> 6), 0x80 ||| (v &&& 0x3F)]
  else if v < 0x10000 then
    [0xE0 ||| (v >>> 12), 0x80 ||| ((v >>> 6) &&& 0x3F), 0x80 ||| (v &&& 0x3F)]
  else
    [0xF0 ||| (v >>> 18), 0x80 ||| ((v >>> 12) &&& 0x3F),
     0x80 ||| ((v >>> 6) &&& 0x3F), 0x80 ||| (v &&& 0x3F)]

/-- The UTF-8 byte stream of a string. -/
def stringBytes (s : String) : List Nat := s.toList.flatMap utf8EncodeChar

/-- Upper-case hexadecimal digit, as in Go `net/url`'s `upperhex` table. -/
def upperHexDigit (n : Nat) : Char := "0123456789ABCDEF".toList.getD n '0'

/-- Go `net/url.shouldEscape(c, encodeQueryComponent)`: alphanumerics and
`- _ . ~` stay, everything else is escaped. -/
def shouldEscapeQuery (n : Nat) : Bool :=
  if (65 ≤ n ∧ n ≤ 90) ∨ (97 ≤ n ∧ n ≤ 122) ∨ (48 ≤ n ∧ n ≤ 57) then false
  else if n = 45 ∨ n = 95 ∨ n = 46 ∨ n = 126 then false
  else true

/-- One byte of Go `url.QueryEscape` output: kept verbatim, `' '` to `'+'`,
otherwise `%XX` with upper-case hex. -/
def queryEscapeByte (n : Nat) : List Char :=
  if shouldEscapeQuery n = false then [Char.ofNat n]
  else if n = 32 then ['+']
  else ['%', upperHexDigit (n / 16), upperHexDigit (n % 16)]

/-- Go `net/url.QueryEscape`, applied byte-wise to the UTF-8 encoding. -/
def queryEscape (s : String) : String :=
  String.mk ((stringBytes s).flatMap queryEscapeByte)

/-- `normalizeURL` from `extractor.go`: trim; keep `""`; keep an explicit
`http(s)` scheme; add `https://` to domain-shaped input (a dot, no space);
otherwise build a DuckDuckGo search URL from the escaped input. -/
def normalizeURL (raw0 : String) : String :=
  let raw := goTrimSpace raw0
  if raw = "" then raw
  else if strStarts raw "http://" || strStarts raw "https://" then raw
  else if containsChar raw '.' && !(containsChar raw ' ') then "https://" ++ raw
  else "https://html.duckduckgo.com/html/?q=" ++ queryEscape raw

lemma goTrimSpace_eq_empty (s : String) (h : ∀ c ∈ s.toList, goIsSpace c = true) :
    goTrimSpace s = "" := by
  have h1 : s.toList.dropWhile goIsSpace = [] :=
    List.dropWhile_eq_nil_iff.mpr h
  unfold goTrimSpace
  rw [h1]
  rfl

lemma strStarts_empty_false (pre : String) (h : pre ≠ "") :
    strStarts "" pre = false := by
  unfold strStarts listStarts
  cases hp : pre.toList with
  | nil =>
    exfalso
    apply h
    cases pre with
    | mk l => simp [String.toList] at hp; simp [hp]
  | cons c cs => rfl

/-- **C10.** `normalizeURL` returns `""` for empty or all-whitespace
input; returns trimmed inputs already starting with `http://` or
`https://` unchanged; prefixes `https://` when the trimmed input contains
a dot and no space; and otherwise rewrites the input into a DuckDuckGo
search URL with the input query-escaped. -/
theorem normalizeURL_spec (s1 s2 s3 s4 : String) :
    ((∀ c ∈ s1.toList, goIsSpace c = true) → normalizeURL s1 = "") ∧
    ((strStarts (goTrimSpace s2) "http://" = true ∨
        strStarts (goTrimSpace s2) "https://" = true) →
      normalizeURL s2 = goTrimSpace s2) ∧
    (strStarts (goTrimSpace s3) "http://" = false →
      strStarts (goTrimSpace s3) "https://" = false →
      containsChar (goTrimSpace s3) '.' = true →
      containsChar (goTrimSpace s3) ' ' = false →
      normalizeURL s3 = "https://" ++ goTrimSpace s3) ∧
    (goTrimSpace s4 ≠ "" →
      strStarts (goTrimSpace s4) "http://" = false →
      strStarts (goTrimSpace s4) "https://" = false →
      (containsChar (goTrimSpace s4) '.' = false ∨
        containsChar (goTrimSpace s4) ' ' = true) →
      normalizeURL s4 =
        "https://html.duckduckgo.com/html/?q=" ++ queryEscape (goTrimSpace s4)) := by
  refine ⟨?_, ?_, ?_, ?_⟩
  · intro h
    have := goTrimSpace_eq_empty s1 h
    simp [normalizeURL, this]
  · intro h
    have hne : goTrimSpace s2 ≠ "" := by
      rcases h with h | h <;>
      · intro hemp
        rw [hemp, strStarts_empty_false _ (by decide)] at h
        exact Bool.false_ne_true h
    rcases h with h | h <;> simp [normalizeURL, hne, h]
  · intro h1 h2 h3 h4
    have hne : goTrimSpace s3 ≠ "" := by
      intro hemp
      rw [hemp] at h3
      simp [containsChar] at h3
    simp [normalizeURL, hne, h1, h2, h3, h4]
  · intro hne h1 h2 h3
    rcases h3 with h3 | h3 <;> simp [normalizeURL, hne, h1, h2, h3]

/-- Witness for `normalizeURL_spec`, exercising all four branches on the
concrete inputs `"  "`, `" https://x.y "`, `"lean.org"` and `"hello world"`. -/
theorem normalizeURL_spec_witness :
    normalizeURL "  " = "" ∧
    normalizeURL " https://x.y " = "https://x.y" ∧
    normalizeURL "lean.org" = "https://" ++ "lean.org" ∧
    normalizeURL "hello world" =
      "https://html.duckduckgo.com/html/?q=" ++ queryEscape "hello world" := by
  obtain ⟨w1, -, -, -⟩ := normalizeURL_spec "  " "" "" ""
  obtain ⟨-, w2, -, -⟩ := normalizeURL_spec "" " https://x.y " "" ""
  obtain ⟨-, -, w3, -⟩ := normalizeURL_spec "" "" "lean.org" ""
  obtain ⟨-, -, -, w4⟩ := normalizeURL_spec "" "" "" "hello world"
  refine ⟨?_, ?_, ?_, ?_⟩
  · exact w1 (by decide)
  · have h := w2 (by right; decide)
    rw [h]; decide
  · have h := w3 (by decide) (by decide) (by decide) (by decide)
    rw [h]
    decide
  · have h := w4 (by decide) (by decide) (by decide) (by left; decide)
    rw [h]
    decide

/-! ## Fetching (`internal/browser/extractor.go`, `Fetcher.FetchWithContext`)

The HTTP transport itself is external; `fetchWithContext` is embedded as a
function of the transport's outcome (an error from `client.Do` — which
also covers the `CheckRedirect` too-many-redirects bound and context
cancellation — or a response).  The decisive step for the body-size limit
is `io.ReadAll(io.LimitReader(resp.Body, maxBodySize))`, which reads at
most `maxBodySize` bytes and reports no error at the limit: `List.take`.
Wall-clock duration is not modelled. -/

/-- `maxBodySize = 10 * 1024 * 1024` bytes (10 MB). -/
def maxBodySize : Nat := 10 * 1024 * 1024

/-- An HTTP response as seen by `FetchWithContext` after `client.Do`:
final (post-redirect) URL, status, content type, the body byte stream, and
an optional body-read error (`io.ReadAll` failure). -/
structure HttpResponse where
  finalURL : String
  statusCode : Nat
  contentType : String
  body : List Nat
  bodyReadError : Option String
deriving Repr, DecidableEq

/-- `FetchResult` from `extractor.go` (fetch duration omitted). -/
structure FetchResult where
  url : String
  finalURL : String
  statusCode : Nat
  contentType : String
  body : List Nat
deriving Repr, DecidableEq

/-- Outcome of `f.client.Do(req)`: a transport error (connect failure,
timeout, `>10` redirects, context cancellation) or a response. -/
inductive TransportOutcome where
  | failure (err : String)
  | response (resp : HttpResponse)
deriving Repr, DecidableEq

/-- `Fetcher.FetchWithContext`: normalize the URL, run the transport, and
on a response read the body through `LimitReader(·, maxBodySize)` —
truncation, not an error. -/
def fetchWithContext (rawURL0 : String) (outcome : TransportOutcome) :
    Except String FetchResult :=
  let rawURL := normalizeURL rawURL0
  match outcome with
  | .failure e => .error ("fetching " ++ rawURL ++ ": " ++ e)
  | .response resp =>
    match resp.bodyReadError with
    | some e => .error ("reading response body: " ++ e)
    | none =>
      .ok { url := rawURL, finalURL := resp.finalURL,
            statusCode := resp.statusCode, contentType := resp.contentType,
            body := resp.body.take maxBodySize }

/-- A response one byte over the 10 MB limit. -/
def oversizedResponse : HttpResponse :=
  { finalURL := "https://example.com/big", statusCode := 200,
    contentType := "text/html",
    body := List.replicate (maxBodySize + 1) 97,
    bodyReadError := none }

/-- **C4, counterexample.** Fetching a response whose body exceeds the
10 MB limit does *not* yield a transport error: the fetch succeeds and the
result carries the body silently truncated to exactly `maxBodySize` bytes
— a partial body handed on to rendering, contradicting the claim. -/
theorem fetch_oversized_not_error_counterexample :
    (fetchWithContext "https://example.com/big"
        (.response oversizedResponse)).isOk = true ∧
    (fetchWithContext "https://example.com/big"
        (.response oversizedResponse)).toOption.map
          (fun r => r.body.length) = some maxBodySize ∧
    (fetchWithContext "https://example.com/big"
        (.response oversizedResponse)).toOption.map
          (fun r => r.body) ≠ some oversizedResponse.body := by
  have hlen : (List.replicate (maxBodySize + 1) 97).take maxBodySize =
      List.replicate maxBodySize 97 := by
    rw [List.take_replicate]
    congr 1
  refine ⟨rfl, ?_, ?_⟩
  · simp [fetchWithContext, oversizedResponse, Except.toOption, hlen]
  · simp [fetchWithContext, oversizedResponse, Except.toOption, hlen]

/-- **C4, amended.** For every fetch whose transport delivers a response
(with no read error), the fetch succeeds and the returned body is the
response body truncated to the first `maxBodySize` bytes; a body
exceeding the limit is never reported as an error — it is rendered
partially. -/
theorem fetch_truncates_body (url : String) (resp : HttpResponse)
    (hread : resp.bodyReadError = none) :
    fetchWithContext url (.response resp) =
      .ok { url := normalizeURL url, finalURL := resp.finalURL,
            statusCode := resp.statusCode, contentType := resp.contentType,
            body := resp.body.take maxBodySize } ∧
    ∀ r, fetchWithContext url (.response resp) = .ok r →
      r.body.length ≤ maxBodySize := by
  constructor
  · simp [fetchWithContext, hread]
  · intro r hr
    simp [fetchWithContext, hread] at hr
    subst hr
    simp

/-- Witness for `fetch_truncates_body` at a concrete small response. -/
theorem fetch_truncates_body_witness :
    fetchWithContext "https://x.y"
        (.response { finalURL := "https://x.y/", statusCode := 200,
                     contentType := "text/html", body := [104, 105],
                     bodyReadError := none }) =
      .ok { url := normalizeURL "https://x.y", finalURL := "https://x.y/",
            statusCode := 200, contentType := "text/html",
            body := ([104, 105] : List Nat).take maxBodySize } :=
  (fetch_truncates_body "https://x.y"
    { finalURL := "https://x.y/", statusCode := 200,
      contentType := "text/html", body := [104, 105],
      bodyReadError := none } rfl).1

/-! ## Parsed HTML documents

`goquery` parses the article HTML into a node tree; the converters walk
it.  The tree is embedded as a mutual inductive: a node is a text node or
an element with a tag, attributes, and a forest of children.  goquery's
`Children()` iterates element children only, `Contents()` iterates all
children, `Text()` concatenates all descendant text, `Attr` returns the
first matching attribute, and `Find(tag)` returns all (also nested)
descendant elements with that tag in document order. -/

mutual
inductive HNode where
  | text (s : String)
  | elem (tag : String) (attrs : List (String × String)) (children : HForest)
inductive HForest where
  | nil
  | cons (head : HNode) (tail : HForest)
end

/-- Build a forest from a list of nodes. -/
def forestOf : List HNode → HForest
  | [] => .nil
  | n :: ns => .cons n (forestOf ns)

/-- `Selection.Attr(name)`: the first attribute with that name. -/
def attrOf (attrs : List (String × String)) (name : String) : Option String :=
  match attrs.find? (fun p => p.1 = name) with
  | some p => some p.2
  | none => none

mutual
/-- goquery `Selection.Text()` of a single node. -/
def nodeText : HNode → String
  | .text s => s
  | .elem _ _ cs => forestText cs
/-- Concatenated text of a forest. -/
def forestText : HForest → String
  | .nil => ""
  | .cons n ns => nodeText n ++ forestText ns
end

mutual
/-- All descendant elements (excluding the root) whose tag is in `tags`,
in document order, descending into matches: `Selection.Find`. -/
def nodeDescTags (tags : List String) : HNode → List HNode
  | .text _ => []
  | .elem _ _ cs => forestDescTags tags cs
/-- Descendant search over a forest (each root node included). -/
def forestDescTags (tags : List String) : HForest → List HNode
  | .nil => []
  | .cons n ns =>
    (match n with
     | .text _ => []
     | .elem t a cs =>
       (if t ∈ tags then [HNode.elem t a cs] else []) ++ forestDescTags tags cs) ++
    forestDescTags tags ns
end

mutual
/-- `Find("thead th, thead td")`-style search: cells that have a `thead`
ancestor strictly below the root. -/
def nodeCellsUnder (anc : String) (cells : List String) (inAnc : Bool) :
    HNode → List HNode
  | .text _ => []
  | .elem t a cs =>
    (if inAnc ∧ t ∈ cells then [HNode.elem t a cs] else []) ++
    forestCellsUnder anc cells (inAnc ∨ t = anc) cs
/-- Forest version of `nodeCellsUnder` (the flag travels down, not across). -/
def forestCellsUnder (anc : String) (cells : List String) (inAnc : Bool) :
    HForest → List HNode
  | .nil => []
  | .cons n ns =>
    nodeCellsUnder anc cells inAnc n ++ forestCellsUnder anc cells inAnc ns
end

/-- Children of an element node, or the empty forest for text. -/
def childrenOf : HNode → HForest
  | .text _ => .nil
  | .elem _ _ cs => cs

/-- Go `strings.Contains` (substring). -/
def listContainsSub (l p : List Char) : Bool :=
  (List.range (l.length + 1)).any (fun i => listStarts (l.drop i) p)

/-- Go `strings.Contains` on strings. -/
def containsSub (s pat : String) : Bool := listContainsSub s.toList pat.toList

/-- Fuel-driven core of Go `strings.Split` (fuel `≥ length` suffices). -/
def splitGo (fuel : Nat) (l p : List Char) (acc : List Char) :
    List (List Char) :=
  match fuel with
  | 0 => [acc.reverse ++ l]
  | fuel + 1 =>
    match l with
    | [] => [acc.reverse]
    | c :: cs =>
      if listStarts (c :: cs) p ∧ p ≠ [] then
        acc.reverse :: splitGo fuel (List.drop p.length (c :: cs)) p []
      else
        splitGo fuel cs p (c :: acc)

/-- Go `strings.Split(s, pat)` for a non-empty pattern. -/
def splitOnSub (s pat : String) : List String :=
  (splitGo (s.toList.length + 1) s.toList pat.toList []).map String.mk

/-- Go `strings.Fields`: whitespace-separated tokens. -/
def goFields (s : String) : List String :=
  ((s.toList.splitOnP (fun c => goIsSpace c)).filter (fun l => l ≠ [])).map
    String.mk

/-- Go `strings.TrimRight(s, "\n")`: drop trailing newline characters. -/
def trimRightNewlines (s : String) : String :=
  String.mk ((s.toList.reverse.dropWhile (fun c => c = '\n')).reverse)

/-- `strings.Repeat(pat, n)`. -/
def strRepeat (pat : String) (n : Nat) : String :=
  String.join (List.replicate n pat)

/-! ## The primary content transformer (`mdConverter`, `extractor.go`)

`mdConverter` converts the parsed tree to markdown, assigning link indices
as it goes; the mutable receiver fields `linkIndex`/`links` become an
explicitly threaded `LinkState`.  `glamour` is an external styling pass
over the produced markdown that does not touch the links. -/

/-- `Link` from `extractor.go`: 1-based index, display text, target. -/
structure Link where
  index : Nat
  text : String
  url : String
deriving Repr, DecidableEq

/-- The mutable fields of `mdConverter` / `fallbackRenderer`. -/
structure LinkState where
  linkIndex : Nat
  links : List Link
deriving Repr, DecidableEq

/-- The converter state at the start of a render. -/
def initLinkState : LinkState := { linkIndex := 0, links := [] }

/-- `mdConverter.convertLink` and `fallbackRenderer.renderLink` share this
state logic: a present, non-empty `href` registers the next sequential
index; otherwise the anchor renders as plain text and consumes no index.
The returned string is the primary path's markdown form. -/
def convertLinkF (attrs : List (String × String)) (cs : HForest)
    (st : LinkState) : String × LinkState :=
  let href? := attrOf attrs "href"
  let href := href?.getD ""
  let text0 := goTrimSpace (forestText cs)
  let text := if text0 = "" then href else text0
  if href? = none ∨ href = "" then (text, st)
  else
    let idx := st.linkIndex + 1
    ("[" ++ text ++ "](" ++ href ++ ") **[" ++ toString idx ++ "]**",
     { linkIndex := idx,
       links := st.links ++ [{ index := idx, text := text, url := href }] })

/-- `mdConverter.convertHeading`. -/
def convertHeadingF (cs : HForest) (level : Nat) : String :=
  let t := goTrimSpace (forestText cs)
  if t = "" then "" else strRepeat "#" level ++ " " ++ t ++ "\n\n"

/-- `mdConverter.convertCodeBlock` (string only; `Fields` of an empty
remainder is totalized to `""` where Go would panic on indexing). -/
def convertCodeBlockF (cs : HForest) : String :=
  let codes := forestDescTags ["code"] cs
  let lang :=
    match codes with
    | [] => ""
    | c0 :: _ =>
      let cls :=
        match c0 with
        | .elem _ a _ => (attrOf a "class").getD ""
        | .text _ => ""
      if containsSub cls "language-" then
        let parts := splitOnSub cls "language-"
        if parts.length > 1 then (goFields (parts.getD 1 "")).getD 0 ""
        else ""
      else ""
  let text :=
    match codes with
    | [] => forestText cs
    | _ => String.join (codes.map nodeText)
  "```" ++ lang ++ "\n" ++ text ++ "\n```\n\n"

/-- `mdConverter.convertImage`. -/
def convertImageF (attrs : List (String × String)) : String :=
  let alt := (attrOf attrs "alt").getD ""
  let src := (attrOf attrs "src").getD ""
  let alt := if alt = "" then "image" else alt
  "![" ++ alt ++ "](" ++ src ++ ")\n\n"

/-- Shared table scraping: header cells, body rows (trimmed cell text). -/
def tableData (cs : HForest) :
    List String × List (List String) × Nat :=
  let headers0 := (forestCellsUnder "thead" ["th", "td"] false cs).map
    (fun c => goTrimSpace (nodeText c))
  let rows := (forestCellsUnder "tbody" ["tr"] false cs).map
    (fun tr => (nodeDescTags ["td", "th"] tr).map
      (fun c => goTrimSpace (nodeText c)))
  let headers :=
    if headers0 = [] then
      match forestDescTags ["tr"] cs with
      | [] => headers0
      | tr :: _ => (nodeDescTags ["th", "td"] tr).map
          (fun c => goTrimSpace (nodeText c))
    else headers0
  let numCols := rows.foldl (fun m r => max m r.length) headers.length
  (headers, rows, numCols)

/-- `mdConverter.convertTable` (string only). -/
def convertTableF (cs : HForest) : String :=
  let (headers, rows, numCols) := tableData cs
  if numCols = 0 then ""
  else
    let headers := headers ++ List.replicate (numCols - headers.length) ""
    let seps := List.replicate numCols "---"
    "| " ++ String.intercalate " | " headers ++ " |\n" ++
    "| " ++ String.intercalate " | " seps ++ " |\n" ++
    String.join (rows.map (fun row =>
      let row := row ++ List.replicate (numCols - row.length) ""
      "| " ++ String.intercalate " | " row ++ " |\n")) ++
    "\n"

/-- Prefix every line of the (right-trimmed) content with `"> "`:
the loop body of `mdConverter.convertBlockquote`. -/
def quoteLines (content : String) : String :=
  String.join ((splitOnSub (trimRightNewlines content) "\n").map
    (fun line => "> " ++ line ++ "\n"))

mutual

/-- `mdConverter.convertNode`: the big tag switch. -/
def convertNode (n : HNode) (depth : Nat) (st : LinkState) :
    String × LinkState :=
  match n with
  | .text s =>
    -- `NodeName` of a text node is `#text`, which falls to the default
    -- branch of the Go switch.
    let t := goTrimSpace s
    (if t = "" then "" else t ++ "\n\n", st)
  | .elem tag attrs cs =>
    match tag with
    | "h1" => (convertHeadingF cs 1, st)
    | "h2" => (convertHeadingF cs 2, st)
    | "h3" => (convertHeadingF cs 3, st)
    | "h4" => (convertHeadingF cs 4, st)
    | "h5" => (convertHeadingF cs 5, st)
    | "h6" => (convertHeadingF cs 6, st)
    | "p" =>
      let r0 := convertInlineF cs st
      let t := goTrimSpace r0.1
      (if t = "" then "" else t ++ "\n\n", r0.2)
    | "a" => convertLinkF attrs cs st
    | "ul" =>
      let r1 := convertListItems cs false depth 0 st
      (r1.1 ++ "\n", r1.2)
    | "ol" =>
      let r2 := convertListItems cs true depth 0 st
      (r2.1 ++ "\n", r2.2)
    | "blockquote" =>
      let r3 := convertBlockquoteF cs st
      (r3.1 ++ "\n", r3.2)
    | "pre" => (convertCodeBlockF cs, st)
    | "code" => ("`" ++ forestText cs ++ "`", st)
    | "img" => (convertImageF attrs, st)
    | "hr" => ("\n---\n\n", st)
    | "table" => (convertTableF cs, st)
    | "br" => ("  \n", st)
    | "strong" =>
      let r4 := convertInlineF cs st
      ("**" ++ r4.1 ++ "**", r4.2)
    | "b" =>
      let r5 := convertInlineF cs st
      ("**" ++ r5.1 ++ "**", r5.2)
    | "em" =>
      let r6 := convertInlineF cs st
      ("*" ++ r6.1 ++ "*", r6.2)
    | "i" =>
      let r7 := convertInlineF cs st
      ("*" ++ r7.1 ++ "*", r7.2)
    | "div" => convertChildren cs depth st
    | "article" => convertChildren cs depth st
    | "section" => convertChildren cs depth st
    | "main" => convertChildren cs depth st
    | "header" => convertChildren cs depth st
    | "footer" => convertChildren cs depth st
    | "figure" => convertChildren cs depth st
    | "span" => convertChildren cs depth st
    | "figcaption" =>
      let t := goTrimSpace (forestText cs)
      (if t = "" then "" else "*" ++ t ++ "*\n\n", st)
    | _ =>
      let t := goTrimSpace (forestText cs)
      (if t = "" then "" else t ++ "\n\n", st)

/-- `s.Children().Each(… convertNode …)`: element children only. -/
def convertChildren (cs : HForest) (depth : Nat) (st : LinkState) :
    String × LinkState :=
  match cs with
  | .nil => ("", st)
  | .cons n ns =>
    match n with
    | .text _ => convertChildren ns depth st
    | .elem t a cs' =>
      let r8 := convertNode (.elem t a cs') depth st
      let r := convertChildren ns depth r8.2
      (r8.1 ++ r.1, r.2)

/-- One child of `mdConverter.convertInlineChildren`'s `Contents().Each`. -/
def convertInlineNode (n : HNode) (st : LinkState) : String × LinkState :=
  match n with
  | .text s => (s, st)
  | .elem tag attrs cs =>
    match tag with
    | "a" => convertLinkF attrs cs st
    | "strong" =>
      let r9 := convertInlineF cs st
      ("**" ++ r9.1 ++ "**", r9.2)
    | "b" =>
      let r10 := convertInlineF cs st
      ("**" ++ r10.1 ++ "**", r10.2)
    | "em" =>
      let r11 := convertInlineF cs st
      ("*" ++ r11.1 ++ "*", r11.2)
    | "i" =>
      let r12 := convertInlineF cs st
      ("*" ++ r12.1 ++ "*", r12.2)
    | "code" => ("`" ++ forestText cs ++ "`", st)
    | "br" => ("  \n", st)
    | _ => convertInlineF cs st

/-- `mdConverter.convertInlineChildren`. -/
def convertInlineF (cs : HForest) (st : LinkState) : String × LinkState :=
  match cs with
  | .nil => ("", st)
  | .cons n ns =>
    let r13 := convertInlineNode n st
    let r := convertInlineF ns r13.2
    (r13.1 ++ r.1, r.2)

/-- The `s.Find("> li").Each` loop of `mdConverter.convertList`
(`itemNum` counts the `li` children seen so far). -/
def convertListItems (cs : HForest) (ordered : Bool) (depth : Nat)
    (itemNum : Nat) (st : LinkState) : String × LinkState :=
  match cs with
  | .nil => ("", st)
  | .cons n ns =>
    match n with
    | .elem "li" a ics =>
      let r14 := convertListItem (.elem "li" a ics) ordered depth
        (itemNum + 1) st
      let r := convertListItems ns ordered depth (itemNum + 1) r14.2
      (r14.1 ++ r.1, r.2)
    | _ => convertListItems ns ordered depth itemNum st

/-- The body of one `li` iteration of `mdConverter.convertList`:
inline contents, then explicit recursion into nested `ul`/`ol` children. -/
def convertListItem (n : HNode) (ordered : Bool) (depth : Nat)
    (itemNum : Nat) (st : LinkState) : String × LinkState :=
  match n with
  | .elem "li" _ ics =>
    let indent := strRepeat "  " depth
    let pre :=
      if ordered then indent ++ toString itemNum ++ ". " else indent ++ "- "
    let r15 := convertInlineF ics st
    let t := goTrimSpace r15.1
    let r := convertNestedLists ics depth r15.2
    (pre ++ t ++ "\n" ++ r.1, r.2)
  | _ => ("", st)

/-- `li.Children().Each`: recurse into nested `ul`/`ol` children. -/
def convertNestedLists (cs : HForest) (depth : Nat) (st : LinkState) :
    String × LinkState :=
  match cs with
  | .nil => ("", st)
  | .cons n ns =>
    let r16 := convertNestedOne n depth st
    let r := convertNestedLists ns depth r16.2
    (r16.1 ++ r.1, r.2)

/-- One child of the nested-list loop: a `ul`/`ol` child is converted as a
list at `depth + 1` (with `convertList`'s trailing newline); anything else
is skipped. -/
def convertNestedOne (n : HNode) (depth : Nat) (st : LinkState) :
    String × LinkState :=
  match n with
  | .elem "ul" _ cs' =>
    let r17 := convertListItems cs' false (depth + 1) 0 st
    (r17.1 ++ "\n", r17.2)
  | .elem "ol" _ cs' =>
    let r18 := convertListItems cs' true (depth + 1) 0 st
    (r18.1 ++ "\n", r18.2)
  | _ => ("", st)

/-- `mdConverter.convertBlockquote`: element children each converted and
quote-prefixed. -/
def convertBlockquoteF (cs : HForest) (st : LinkState) : String × LinkState :=
  match cs with
  | .nil => ("", st)
  | .cons n ns =>
    match n with
    | .text _ => convertBlockquoteF ns st
    | .elem t a cs' =>
      let r19 := convertNode (.elem t a cs') 0 st
      let r := convertBlockquoteF ns r19.2
      (quoteLines r19.1 ++ r.1, r.2)

end

/-! ## The fallback renderer (`fallbackRenderer`, `extractor.go`)

`RenderFallback` walks the same tree without glamour.  `lipgloss` style
`Render` calls only decorate text (colors, bold, padding) and never touch
the link state; they are modelled as the identity on the text, so the
produced strings here are the unstyled text in the source's order. -/

/-- The `min` helper at the bottom of `extractor.go`. -/
def goMin (a b : Int) : Int := if a < b then a else b

/-- The word loop of `wrapText` (Go byte lengths; `i` is the index). -/
def wrapPara (words : List String) (width : Int) : String :=
  (words.foldl
    (fun (acc : String × Int × Nat) word =>
      let (result, lineLen, i) := acc
      let wLen : Int := ((stringBytes word).length : Int)
      if i > 0 ∧ lineLen + 1 + wLen > width then
        (result ++ "\n" ++ word, wLen, i + 1)
      else if i > 0 then
        (result ++ " " ++ word, lineLen + 1 + wLen, i + 1)
      else
        (result ++ word, lineLen + wLen, i + 1))
    ("", 0, 0)).1

/-- `wrapText` from `extractor.go`: greedy word wrap per paragraph. -/
def wrapText (text : String) (width : Int) : String :=
  if width ≤ 0 then text
  else
    trimRightNewlines (String.join ((splitOnSub text "\n").map (fun para =>
      if para = "" then "\n"
      else
        let words := goFields para
        if words = [] then "\n"
        else wrapPara words width ++ "\n")))

/-- `fallbackRenderer.renderLink`: identical state logic to
`convertLink`; only the text decoration differs. -/
def renderLinkFB (attrs : List (String × String)) (cs : HForest)
    (st : LinkState) : String × LinkState :=
  let href? := attrOf attrs "href"
  let href := href?.getD ""
  let text0 := goTrimSpace (forestText cs)
  let text := if text0 = "" then href else text0
  if href? = none ∨ href = "" then (text, st)
  else
    let idx := st.linkIndex + 1
    (text ++ " [" ++ toString idx ++ "]",
     { linkIndex := idx,
       links := st.links ++ [{ index := idx, text := text, url := href }] })

/-- `fallbackRenderer.renderHeading` (h4–h6 collapse to level 4). -/
def renderHeadingFB (cs : HForest) (level : Nat) : String :=
  let t := goTrimSpace (forestText cs)
  if t = "" then ""
  else
    let pre :=
      match level with
      | 1 => ""
      | 2 => "## "
      | 3 => "### "
      | _ => "#### "
    pre ++ t ++ "\n\n"

/-- `fallbackRenderer.renderImage`. -/
def renderImageFB (attrs : List (String × String)) : String :=
  let alt := (attrOf attrs "alt").getD ""
  let src := (attrOf attrs "src").getD ""
  let alt := if alt = "" then "image" else alt
  "[IMG: " ++ alt ++ "] (" ++ src ++ ")" ++ "\n\n"

/-- `fallbackRenderer.renderHR` (a negative repeat count is clamped). -/
def renderHRFB (width : Int) : String :=
  "\n" ++ strRepeat "─" (goMin width 60).toNat ++ "\n\n"

/-- `fallbackRenderer.renderCodeBlock` (string only). -/
def renderCodeBlockFB (cs : HForest) : String :=
  let code := String.join ((forestDescTags ["code"] cs).map nodeText)
  let code := if code = "" then forestText cs else code
  code ++ "\n\n"

/-- `fallbackRenderer.renderTable` (string only; styles are identity, so
the computed column widths surface only in the separator bar). -/
def renderTableFB (cs : HForest) : String :=
  let headers0 := (forestCellsUnder "thead" ["th", "td"] false cs).map
    (fun c => goTrimSpace (nodeText c))
  let rows := (forestCellsUnder "tbody" ["tr"] false cs).map
    (fun tr => (nodeDescTags ["td", "th"] tr).map
      (fun c => goTrimSpace (nodeText c)))
  let headers :=
    if headers0 = [] ∧ rows ≠ [] then
      match forestDescTags ["tr"] cs with
      | [] => headers0
      | tr :: _ => (nodeDescTags ["th", "td"] tr).map
          (fun c => goTrimSpace (nodeText c))
    else headers0
  let numCols := rows.foldl (fun m r => max m r.length) headers.length
  if numCols = 0 then ""
  else
    let colWidths := (List.range numCols).map (fun i =>
      max (stringBytes (headers.getD i "")).length
        (rows.foldl (fun m r => max m (stringBytes (r.getD i "")).length) 0))
    (if headers ≠ [] then
      String.join headers ++ "\n" ++
      String.join (colWidths.map (fun w => strRepeat "─" (w + 2))) ++ "\n"
    else "") ++
    String.join (rows.map (fun row =>
      String.join ((List.range numCols).map (fun i => row.getD i "")) ++ "\n")) ++
    "\n"

mutual

/-- `fallbackRenderer.renderNode`: the tag switch of the fallback path. -/
def renderNode (width : Int) (n : HNode) (st : LinkState) :
    String × LinkState :=
  match n with
  | .text s =>
    let t := goTrimSpace s
    (if t = "" then "" else t ++ "\n\n", st)
  | .elem tag attrs cs =>
    match tag with
    | "h1" => (renderHeadingFB cs 1, st)
    | "h2" => (renderHeadingFB cs 2, st)
    | "h3" => (renderHeadingFB cs 3, st)
    | "h4" => (renderHeadingFB cs 4, st)
    | "h5" => (renderHeadingFB cs 4, st)
    | "h6" => (renderHeadingFB cs 4, st)
    | "p" =>
      let r20 := renderInlineF cs st
      let t := goTrimSpace r20.1
      (if t = "" then "" else wrapText t width ++ "\n\n", r20.2)
    | "a" => renderLinkFB attrs cs st
    | "ul" =>
      let r21 := renderListItemsF cs false 0 st
      (r21.1 ++ "\n", r21.2)
    | "ol" =>
      let r22 := renderListItemsF cs true 0 st
      (r22.1 ++ "\n", r22.2)
    | "blockquote" =>
      let t := goTrimSpace (forestText cs)
      (if t = "" then "" else t ++ "\n\n", st)
    | "pre" => (renderCodeBlockFB cs, st)
    | "code" => (forestText cs, st)
    | "img" => (renderImageFB attrs, st)
    | "hr" => (renderHRFB width, st)
    | "table" => (renderTableFB cs, st)
    | "br" => ("\n", st)
    | "div" => renderChildrenF width cs st
    | "article" => renderChildrenF width cs st
    | "section" => renderChildrenF width cs st
    | "main" => renderChildrenF width cs st
    | "header" => renderChildrenF width cs st
    | "footer" => renderChildrenF width cs st
    | "figure" => renderChildrenF width cs st
    | "figcaption" => renderChildrenF width cs st
    | "span" => renderChildrenF width cs st
    | _ =>
      let t := goTrimSpace (forestText cs)
      (if t = "" then "" else t ++ "\n\n", st)

/-- `s.Children().Each(… renderNode …)`: element children only. -/
def renderChildrenF (width : Int) (cs : HForest) (st : LinkState) :
    String × LinkState :=
  match cs with
  | .nil => ("", st)
  | .cons n ns =>
    match n with
    | .text _ => renderChildrenF width ns st
    | .elem t a cs' =>
      let r23 := renderNode width (.elem t a cs') st
      let r := renderChildrenF width ns r23.2
      (r23.1 ++ r.1, r.2)

/-- One child of `fallbackRenderer.renderInline`'s `Contents().Each`:
note `strong`/`em` use `child.Text()` and never reach anchors inside. -/
def renderInlineNode (n : HNode) (st : LinkState) : String × LinkState :=
  match n with
  | .text s => (s, st)
  | .elem tag attrs cs =>
    match tag with
    | "a" => renderLinkFB attrs cs st
    | "strong" => (forestText cs, st)
    | "b" => (forestText cs, st)
    | "em" => (forestText cs, st)
    | "i" => (forestText cs, st)
    | "code" => (forestText cs, st)
    | "br" => ("\n", st)
    | _ => renderInlineF cs st

/-- `fallbackRenderer.renderInline`. -/
def renderInlineF (cs : HForest) (st : LinkState) : String × LinkState :=
  match cs with
  | .nil => ("", st)
  | .cons n ns =>
    let r24 := renderInlineNode n st
    let r := renderInlineF ns r24.2
    (r24.1 ++ r.1, r.2)

/-- The `s.Find("> li").Each` loop of `fallbackRenderer.renderList`:
no recursion into nested lists beyond the inline walk. -/
def renderListItemsF (cs : HForest) (ordered : Bool) (itemNum : Nat)
    (st : LinkState) : String × LinkState :=
  match cs with
  | .nil => ("", st)
  | .cons n ns =>
    match n with
    | .elem "li" a ics =>
      let r25 := renderListItemFB (.elem "li" a ics) ordered
        (itemNum + 1) st
      let r := renderListItemsF ns ordered (itemNum + 1) r25.2
      (r25.1 ++ r.1, r.2)
    | _ => renderListItemsF ns ordered itemNum st

/-- The body of one `li` iteration of `fallbackRenderer.renderList`. -/
def renderListItemFB (n : HNode) (ordered : Bool) (itemNum : Nat)
    (st : LinkState) : String × LinkState :=
  match n with
  | .elem "li" _ ics =>
    let pre :=
      if ordered then "  " ++ toString itemNum ++ ". " else "  • "
    let r26 := renderInlineF ics st
    let t := goTrimSpace r26.1
    (pre ++ t ++ "\n", r26.2)
  | _ => ("", st)

end

/-! ## Top-level render entry points -/

/-- `RenderedPage` from `extractor.go`. -/
structure RenderedPage where
  title : String
  content : String
  links : List Link
deriving Repr, DecidableEq

/-- An `Article` whose HTML `Content` has been parsed (by goquery, an
external collaborator) into the body's child forest.  `goquery` parsing of
a string never fails in practice, so the parse-error early return of
`Render`/`RenderFallback` is not modelled. -/
structure ArticleDoc where
  title : String
  byline : String
  textContent : String
  body : HForest

/-- `Render(article, width)`: build the markdown (title, byline, rule,
converted body) while collecting links; glamour styling is an external
pass over the markdown that never touches the links (on error the raw
markdown is used), modelled as the markdown itself. -/
def Render (article : ArticleDoc) (width : Int) : RenderedPage :=
  let width := if width ≤ 0 then 80 else width
  let contentWidth0 := width - 4
  let _contentWidth := if contentWidth0 > 100 then 100 else contentWidth0
  let md0 :=
    (if article.title ≠ "" then "# " ++ article.title ++ "\n\n" else "") ++
    (if article.byline ≠ "" then "*" ++ article.byline ++ "*\n\n" else "") ++
    "---\n\n"
  let r := convertChildren article.body 0 initLinkState
  { title := article.title, content := md0 ++ r.1, links := r.2.links }

/-- `RenderFallback(article, width)`: title, byline, separator and body
via the fallback renderer (styles modelled as identity on text). -/
def RenderFallback (article : ArticleDoc) (width : Int) : RenderedPage :=
  let width := if width ≤ 0 then 80 else width
  let contentWidth0 := width - 4
  let contentWidth := if contentWidth0 > 100 then 100 else contentWidth0
  let titlePart := if article.title ≠ "" then article.title ++ "\n\n" else ""
  let bylinePart := if article.byline ≠ "" then article.byline ++ "\n\n" else ""
  let sep := strRepeat "─" (goMin contentWidth 60).toNat ++ "\n\n"
  let r := renderChildrenF contentWidth article.body initLinkState
  { title := article.title,
    content := titlePart ++ bylinePart ++ sep ++ r.1,
    links := r.2.links }

/-! ## Link-index contiguity (claim C3)

The only state mutation anywhere in either converter is the registration
step shared by `convertLink`/`renderLink`: it increments `linkIndex` and
appends a link carrying the new index and a non-empty target.  `GoodState`
captures the invariant; it is preserved by every converter function. -/

/-- The link table is well-formed: the counter equals the table length,
indices are exactly `1..N` in order, and every recorded target is
non-empty. -/
def GoodState (st : LinkState) : Prop :=
  st.linkIndex = st.links.length ∧
  st.links.map Link.index = List.range' 1 st.links.length ∧
  ∀ l ∈ st.links, l.url ≠ ""

lemma goodState_init : GoodState initLinkState := by
  refine ⟨rfl, rfl, ?_⟩
  intro l hl
  simp [initLinkState] at hl

lemma convertLinkF_good (attrs : List (String × String)) (cs : HForest)
    (st : LinkState) (h : GoodState st) :
    GoodState (convertLinkF attrs cs st).2 := by
  obtain ⟨h1, h2, h3⟩ := h
  simp only [convertLinkF]
  split
  · exact ⟨h1, h2, h3⟩
  · rename_i hcond
    push_neg at hcond
    refine ⟨?_, ?_, ?_⟩
    · simp [h1]
    · simp only [List.map_append, List.length_append, List.map_cons,
        List.map_nil, List.length_cons, List.length_nil]
      rw [h2, h1]
      rw [show st.links.length + (0 + 1) = st.links.length + 1 by omega,
        List.range'_1_concat, Nat.add_comm 1 st.links.length]
    · intro l hl
      rcases List.mem_append.mp hl with hl | hl
      · exact h3 l hl
      · simp at hl
        subst hl
        exact hcond.2

lemma renderLinkFB_good (attrs : List (String × String)) (cs : HForest)
    (st : LinkState) (h : GoodState st) :
    GoodState (renderLinkFB attrs cs st).2 := by
  obtain ⟨h1, h2, h3⟩ := h
  simp only [renderLinkFB]
  split
  · exact ⟨h1, h2, h3⟩
  · rename_i hcond
    push_neg at hcond
    refine ⟨?_, ?_, ?_⟩
    · simp [h1]
    · simp only [List.map_append, List.length_append, List.map_cons,
        List.map_nil, List.length_cons, List.length_nil]
      rw [h2, h1]
      rw [show st.links.length + (0 + 1) = st.links.length + 1 by omega,
        List.range'_1_concat, Nat.add_comm 1 st.links.length]
    · intro l hl
      rcases List.mem_append.mp hl with hl | hl
      · exact h3 l hl
      · simp at hl
        subst hl
        exact hcond.2

set_option maxHeartbeats 2000000 in
mutual

theorem convertNode_good : ∀ (n : HNode) (d : Nat) (st : LinkState),
    GoodState st → GoodState (convertNode n d st).2
  | .text s, _, st, h => by simpa [convertNode] using h
  | .elem tag attrs cs, d, st, h => by
    have hI := convertInlineF_good cs st h
    have hC := convertChildren_good cs d st h
    have hLu := convertListItems_good cs false d 0 st h
    have hLo := convertListItems_good cs true d 0 st h
    have hB := convertBlockquoteF_good cs st h
    have hA := convertLinkF_good attrs cs st h
    unfold convertNode
    split <;> first
      | exact h
      | exact hA
      | exact hC
      | simpa using h
      | simpa using hI
      | simpa using hLu
      | simpa using hLo
      | simpa using hB

theorem convertChildren_good : ∀ (cs : HForest) (d : Nat) (st : LinkState),
    GoodState st → GoodState (convertChildren cs d st).2
  | .nil, _, st, h => by simpa [convertChildren] using h
  | .cons n ns, d, st, h => by
    cases n with
    | text s => simpa [convertChildren] using convertChildren_good ns d st h
    | elem t a cs' =>
      have h1 := convertNode_good (.elem t a cs') d st h
      have h2 := convertChildren_good ns d (convertNode (.elem t a cs') d st).2 h1
      simpa [convertChildren] using h2

theorem convertInlineNode_good : ∀ (n : HNode) (st : LinkState),
    GoodState st → GoodState (convertInlineNode n st).2
  | .text s, st, h => by simpa [convertInlineNode] using h
  | .elem tag attrs cs, st, h => by
    have hI := convertInlineF_good cs st h
    have hA := convertLinkF_good attrs cs st h
    unfold convertInlineNode
    split <;> first
      | simpa using h
      | simpa using hI
      | simpa using hA

theorem convertInlineF_good : ∀ (cs : HForest) (st : LinkState),
    GoodState st → GoodState (convertInlineF cs st).2
  | .nil, st, h => by simpa [convertInlineF] using h
  | .cons n ns, st, h => by
    have h1 := convertInlineNode_good n st h
    have h2 := convertInlineF_good ns (convertInlineNode n st).2 h1
    simpa [convertInlineF] using h2

theorem convertListItems_good : ∀ (cs : HForest) (ord : Bool) (d i : Nat)
    (st : LinkState), GoodState st → GoodState (convertListItems cs ord d i st).2
  | .nil, _, _, _, st, h => by simpa [convertListItems] using h
  | .cons n ns, ord, d, i, st, h => by
    unfold convertListItems
    split
    · rename_i a ics
      have h1 := convertListItem_good (.elem "li" a ics) ord d (i + 1) st h
      have h2 := convertListItems_good ns ord d (i + 1)
        (convertListItem (.elem "li" a ics) ord d (i + 1) st).2 h1
      simpa using h2
    · exact convertListItems_good ns ord d i st h

theorem convertListItem_good : ∀ (n : HNode) (ord : Bool) (d i : Nat)
    (st : LinkState), GoodState st → GoodState (convertListItem n ord d i st).2
  | .text s, _, _, _, st, h => by simpa [convertListItem] using h
  | .elem t a ics, ord, d, i, st, h => by
    have h1 := convertInlineF_good ics st h
    have h2 := convertNestedLists_good ics d (convertInlineF ics st).2 h1
    by_cases ht : t = "li"
    · subst ht
      simpa [convertListItem] using h2
    · unfold convertListItem
      split <;> first
        | exact h
        | (rename_i heq; injection heq with e1 e2 e3; exact (ht e1).elim)

theorem convertNestedLists_good : ∀ (cs : HForest) (d : Nat) (st : LinkState),
    GoodState st → GoodState (convertNestedLists cs d st).2
  | .nil, _, st, h => by simpa [convertNestedLists] using h
  | .cons n ns, d, st, h => by
    have h1 := convertNestedOne_good n d st h
    have h2 := convertNestedLists_good ns d (convertNestedOne n d st).2 h1
    simpa [convertNestedLists] using h2

theorem convertNestedOne_good : ∀ (n : HNode) (d : Nat) (st : LinkState),
    GoodState st → GoodState (convertNestedOne n d st).2
  | .text s, _, st, h => by simpa [convertNestedOne] using h
  | .elem t a cs', d, st, h => by
    have h1 := convertListItems_good cs' false (d + 1) 0 st h
    have h2 := convertListItems_good cs' true (d + 1) 0 st h
    by_cases hu : t = "ul"
    · subst hu
      simpa [convertNestedOne] using h1
    · by_cases ho : t = "ol"
      · subst ho
        simpa [convertNestedOne] using h2
      · unfold convertNestedOne
        split <;> first
          | exact h
          | (rename_i heq; injection heq with e1 e2 e3; exact (hu e1).elim)
          | (rename_i heq; injection heq with e1 e2 e3; exact (ho e1).elim)

theorem convertBlockquoteF_good : ∀ (cs : HForest) (st : LinkState),
    GoodState st → GoodState (convertBlockquoteF cs st).2
  | .nil, st, h => by simpa [convertBlockquoteF] using h
  | .cons n ns, st, h => by
    cases n with
    | text s => simpa [convertBlockquoteF] using convertBlockquoteF_good ns st h
    | elem t a cs' =>
      have h1 := convertNode_good (.elem t a cs') 0 st h
      have h2 := convertBlockquoteF_good ns (convertNode (.elem t a cs') 0 st).2 h1
      simpa [convertBlockquoteF] using h2

end

set_option maxHeartbeats 2000000 in
mutual

theorem renderNode_good : ∀ (w : Int) (n : HNode) (st : LinkState),
    GoodState st → GoodState (renderNode w n st).2
  | _, .text s, st, h => by simpa [renderNode] using h
  | w, .elem tag attrs cs, st, h => by
    have hI := renderInlineF_good cs st h
    have hC := renderChildrenF_good w cs st h
    have hLu := renderListItemsF_good cs false 0 st h
    have hLo := renderListItemsF_good cs true 0 st h
    have hA := renderLinkFB_good attrs cs st h
    unfold renderNode
    split <;> first
      | exact h
      | exact hA
      | exact hC
      | simpa using h
      | simpa using hI
      | simpa using hLu
      | simpa using hLo

theorem renderChildrenF_good : ∀ (w : Int) (cs : HForest) (st : LinkState),
    GoodState st → GoodState (renderChildrenF w cs st).2
  | _, .nil, st, h => by simpa [renderChildrenF] using h
  | w, .cons n ns, st, h => by
    cases n with
    | text s => simpa [renderChildrenF] using renderChildrenF_good w ns st h
    | elem t a cs' =>
      have h1 := renderNode_good w (.elem t a cs') st h
      have h2 := renderChildrenF_good w ns (renderNode w (.elem t a cs') st).2 h1
      simpa [renderChildrenF] using h2

theorem renderInlineNode_good : ∀ (n : HNode) (st : LinkState),
    GoodState st → GoodState (renderInlineNode n st).2
  | .text s, st, h => by simpa [renderInlineNode] using h
  | .elem tag attrs cs, st, h => by
    have hI := renderInlineF_good cs st h
    have hA := renderLinkFB_good attrs cs st h
    unfold renderInlineNode
    split <;> first
      | exact h
      | exact hA
      | simpa using h
      | simpa using hI

theorem renderInlineF_good : ∀ (cs : HForest) (st : LinkState),
    GoodState st → GoodState (renderInlineF cs st).2
  | .nil, st, h => by simpa [renderInlineF] using h
  | .cons n ns, st, h => by
    have h1 := renderInlineNode_good n st h
    have h2 := renderInlineF_good ns (renderInlineNode n st).2 h1
    simpa [renderInlineF] using h2

theorem renderListItemsF_good : ∀ (cs : HForest) (ord : Bool) (i : Nat)
    (st : LinkState), GoodState st → GoodState (renderListItemsF cs ord i st).2
  | .nil, _, _, st, h => by simpa [renderListItemsF] using h
  | .cons n ns, ord, i, st, h => by
    unfold renderListItemsF
    split
    · rename_i a ics
      have h1 := renderListItemFB_good (.elem "li" a ics) ord (i + 1) st h
      have h2 := renderListItemsF_good ns ord (i + 1)
        (renderListItemFB (.elem "li" a ics) ord (i + 1) st).2 h1
      simpa using h2
    · exact renderListItemsF_good ns ord i st h

theorem renderListItemFB_good : ∀ (n : HNode) (ord : Bool) (i : Nat)
    (st : LinkState), GoodState st → GoodState (renderListItemFB n ord i st).2
  | .text s, _, _, st, h => by simpa [renderListItemFB] using h
  | .elem t a ics, ord, i, st, h => by
    have h1 := renderInlineF_good ics st h
    by_cases ht : t = "li"
    · subst ht
      simpa [renderListItemFB] using h1
    · unfold renderListItemFB
      split <;> first
        | exact h
        | (rename_i heq; injection heq with e1 e2 e3; exact (ht e1).elim)

end

/-- The concrete single-anchor document with a fragment-only target. -/
def fragmentAnchorArticle : ArticleDoc :=
  { title := "", byline := "", textContent := "",
    body := forestOf [.elem "a" [("href", "#top")]
      (forestOf [.text "x"])] }

/-- **C3, counterexample.** An anchor whose target is the pure fragment
`#top` — not followable under the claim, so it should render as plain text
and consume no index — is assigned index 1 by both transformer paths: the
code only checks that `href` exists and is non-empty, never that it is a
non-fragment, non-script target. -/
theorem transformer_fragment_anchor_counterexample :
    (Render fragmentAnchorArticle 80).links =
      [{ index := 1, text := "x", url := "#top" }] ∧
    (RenderFallback fragmentAnchorArticle 80).links =
      [{ index := 1, text := "x", url := "#top" }] := by
  constructor <;> rfl

/-- **C3, amended.** For every input to the Content Transformer (either
path) the link indices of the output are exactly `1..N` with no gaps or
repeats, assigned in the order the converter's traversal registers
anchors, where `N` is the number of anchor registrations with a present,
non-empty target (fragment and script targets included; an anchor inside
a nested list is registered twice by the primary path); anchors with a
missing or empty target render as plain text and consume no index —
every registered link has a non-empty target. -/
theorem transformer_link_indices (article : ArticleDoc) (width : Int) :
    ((Render article width).links.map Link.index =
      List.range' 1 (Render article width).links.length ∧
     ∀ l ∈ (Render article width).links, l.url ≠ "") ∧
    ((RenderFallback article width).links.map Link.index =
      List.range' 1 (RenderFallback article width).links.length ∧
     ∀ l ∈ (RenderFallback article width).links, l.url ≠ "") := by
  have hp := convertChildren_good article.body 0 initLinkState goodState_init
  have hf := renderChildrenF_good
    (let width := if width ≤ 0 then 80 else width
     let contentWidth0 := width - 4
     if contentWidth0 > 100 then 100 else contentWidth0)
    article.body initLinkState goodState_init
  constructor
  · obtain ⟨-, h2, h3⟩ := hp
    exact ⟨h2, h3⟩
  · obtain ⟨-, h2, h3⟩ := hf
    exact ⟨h2, h3⟩

/-! ## Primary/fallback equivalence (claim C2)

The two paths do *not* agree on all documents: the primary path registers
anchors inside blockquotes (the fallback flattens blockquotes to text),
registers anchors inside `strong`/`em` inline markup (the fallback uses
`child.Text()` there), registers anchors in nested lists twice (explicit
nested-list recursion on top of the inline walk), and conversely the
fallback — whose container list includes `figcaption` — registers anchors
inside `figcaption` (the primary flattens it to text).  The predicates
below carve out the fragment on which the two paths agree. -/

mutual
/-- No anchor element anywhere in the node. -/
def noAnchorNode : HNode → Bool
  | .text _ => true
  | .elem t _ cs => if t = "a" then false else noAnchorF cs
/-- No anchor element anywhere in the forest. -/
def noAnchorF : HForest → Bool
  | .nil => true
  | .cons n ns => noAnchorNode n && noAnchorF ns
end

mutual
/-- One inline child on which both inline walks register the same links:
anchors and text freely; `strong`/`b`/`em`/`i` only without anchors
inside (the fallback flattens them to text); other elements recurse. -/
def inlineSafeNode : HNode → Bool
  | .text _ => true
  | .elem t _ cs =>
    if t = "a" then true
    else if t = "strong" ∨ t = "b" ∨ t = "em" ∨ t = "i" then noAnchorF cs
    else if t = "code" ∨ t = "br" then true
    else inlineSafeF cs
/-- Inline-safe forest. -/
def inlineSafeF : HForest → Bool
  | .nil => true
  | .cons n ns => inlineSafeNode n && inlineSafeF ns
end

/-- A node that the primary nested-list loop processes without
registering links: `ul`/`ol` children must be anchor-free (everything
else is skipped by that loop). -/
def nestedOneSafe : HNode → Bool
  | .elem "ul" a cs => noAnchorNode (.elem "ul" a cs)
  | .elem "ol" a cs => noAnchorNode (.elem "ol" a cs)
  | _ => true

/-- Direct `ul`/`ol` children carry no anchors. -/
def directListNoAnchor : HForest → Bool
  | .nil => true
  | .cons n ns => nestedOneSafe n && directListNoAnchor ns

/-- A list child on which both list loops agree: `li` children need
inline-safe contents and anchor-free direct nested lists (the primary
path registers nested-list anchors a second time); non-`li` children are
skipped by both loops. -/
def liSafeNode : HNode → Bool
  | .elem "li" _ ics => inlineSafeF ics && directListNoAnchor ics
  | _ => true

/-- List-safe forest (children of a `ul`/`ol`). -/
def listSafeF : HForest → Bool
  | .nil => true
  | .cons n ns => liSafeNode n && listSafeF ns

mutual
/-- Documents on which the primary and fallback paths produce the same
link list: anchors may appear at top level, in paragraphs and list items
(inline-safe), but not inside blockquotes, `strong`/`em`, `figcaption`,
or nested lists. -/
def safeNode : HNode → Bool
  | .text _ => true
  | .elem t _ cs =>
    if t = "a" then true
    else if t = "h1" ∨ t = "h2" ∨ t = "h3" ∨ t = "h4" ∨ t = "h5" ∨ t = "h6"
      then true
    else if t = "p" then inlineSafeF cs
    else if t = "ul" ∨ t = "ol" then listSafeF cs
    else if t = "blockquote" then noAnchorF cs
    else if t = "pre" ∨ t = "code" ∨ t = "img" ∨ t = "hr" ∨ t = "br" ∨
      t = "table" then true
    else if t = "strong" ∨ t = "b" ∨ t = "em" ∨ t = "i" then noAnchorF cs
    else if t = "div" ∨ t = "article" ∨ t = "section" ∨ t = "main" ∨
      t = "header" ∨ t = "footer" ∨ t = "figure" ∨ t = "span"
      then safeChildrenF cs
    else if t = "figcaption" then noAnchorF cs
    else true
/-- Element children safe (text children are skipped by `Children()`). -/
def safeChildrenF : HForest → Bool
  | .nil => true
  | .cons n ns => safeNode n && safeChildrenF ns
end

theorem nestedOneSafe_of_noAnchor : ∀ n : HNode,
    noAnchorNode n = true → nestedOneSafe n = true := by
  intro n h
  unfold nestedOneSafe
  split <;> simp_all

theorem directListNoAnchor_of_noAnchorF : ∀ cs : HForest,
    noAnchorF cs = true → directListNoAnchor cs = true
  | .nil, _ => rfl
  | .cons n ns, h => by
    rw [noAnchorF, Bool.and_eq_true] at h
    rw [directListNoAnchor, Bool.and_eq_true]
    exact ⟨nestedOneSafe_of_noAnchor n h.1,
      directListNoAnchor_of_noAnchorF ns h.2⟩

set_option maxHeartbeats 2000000 in
mutual

theorem convertNode_frozen : ∀ (n : HNode), noAnchorNode n = true →
    ∀ (d : Nat) (st : LinkState), (convertNode n d st).2 = st
  | .text s, _, d, st => by simp [convertNode]
  | .elem t a cs, h, d, st => by
    have ht : t ≠ "a" := by
      intro he
      subst he
      simp [noAnchorNode] at h
    have hcs : noAnchorF cs = true := by
      rw [noAnchorNode, if_neg ht] at h
      exact h
    have hI := convertInlineF_frozen cs hcs st
    have hC := convertChildren_frozen cs hcs d st
    have hLu := convertListItems_frozen cs hcs false d 0 st
    have hLo := convertListItems_frozen cs hcs true d 0 st
    have hB := convertBlockquoteF_frozen cs hcs st
    unfold convertNode
    split <;> first
      | rfl
      | exact absurd rfl ht
      | exact hI
      | exact hC
      | exact hLu
      | exact hLo
      | exact hB

theorem convertChildren_frozen : ∀ (cs : HForest), noAnchorF cs = true →
    ∀ (d : Nat) (st : LinkState), (convertChildren cs d st).2 = st
  | .nil, _, d, st => by simp [convertChildren]
  | .cons n ns, h, d, st => by
    rw [noAnchorF, Bool.and_eq_true] at h
    cases n with
    | text s =>
      simpa [convertChildren] using convertChildren_frozen ns h.2 d st
    | elem t a cs' =>
      have h1 := convertNode_frozen (.elem t a cs') h.1 d st
      have h2 := convertChildren_frozen ns h.2 d
        (convertNode (.elem t a cs') d st).2
      simp only [convertChildren]
      rw [h2, h1]

theorem convertInlineNode_frozen : ∀ (n : HNode), noAnchorNode n = true →
    ∀ (st : LinkState), (convertInlineNode n st).2 = st
  | .text s, _, st => by simp [convertInlineNode]
  | .elem t a cs, h, st => by
    have ht : t ≠ "a" := by
      intro he
      subst he
      simp [noAnchorNode] at h
    have hcs : noAnchorF cs = true := by
      rw [noAnchorNode, if_neg ht] at h
      exact h
    have hI := convertInlineF_frozen cs hcs st
    unfold convertInlineNode
    split <;> first
      | rfl
      | exact absurd rfl ht
      | exact hI

theorem convertInlineF_frozen : ∀ (cs : HForest), noAnchorF cs = true →
    ∀ (st : LinkState), (convertInlineF cs st).2 = st
  | .nil, _, st => by simp [convertInlineF]
  | .cons n ns, h, st => by
    rw [noAnchorF, Bool.and_eq_true] at h
    have h1 := convertInlineNode_frozen n h.1 st
    have h2 := convertInlineF_frozen ns h.2 (convertInlineNode n st).2
    simp only [convertInlineF]
    rw [h2, h1]

theorem convertListItems_frozen : ∀ (cs : HForest), noAnchorF cs = true →
    ∀ (ord : Bool) (d i : Nat) (st : LinkState),
      (convertListItems cs ord d i st).2 = st
  | .nil, _, ord, d, i, st => by simp [convertListItems]
  | .cons n ns, h, ord, d, i, st => by
    rw [noAnchorF, Bool.and_eq_true] at h
    unfold convertListItems
    split
    · rename_i a ics
      have h1 := convertListItem_frozen (.elem "li" a ics) h.1 ord d (i + 1) st
      have h2 := convertListItems_frozen ns h.2 ord d (i + 1)
        (convertListItem (.elem "li" a ics) ord d (i + 1) st).2
      simp only []
      rw [h2, h1]
    · exact convertListItems_frozen ns h.2 ord d i st

theorem convertListItem_frozen : ∀ (n : HNode), noAnchorNode n = true →
    ∀ (ord : Bool) (d i : Nat) (st : LinkState),
      (convertListItem n ord d i st).2 = st
  | .text s, _, ord, d, i, st => by simp [convertListItem]
  | .elem t a ics, h, ord, d, i, st => by
    have ht : t ≠ "a" := by
      intro he
      subst he
      simp [noAnchorNode] at h
    have hcs : noAnchorF ics = true := by
      rw [noAnchorNode, if_neg ht] at h
      exact h
    have h1 := convertInlineF_frozen ics hcs st
    have h2 := convertNestedLists_frozen ics
      (directListNoAnchor_of_noAnchorF ics hcs) d (convertInlineF ics st).2
    by_cases hli : t = "li"
    · subst hli
      simp only [convertListItem]
      rw [h2, h1]
    · unfold convertListItem
      split <;> first
        | rfl
        | (rename_i heq; injection heq with e1 e2 e3; exact (hli e1).elim)

theorem convertNestedLists_frozen : ∀ (cs : HForest),
    directListNoAnchor cs = true →
    ∀ (d : Nat) (st : LinkState), (convertNestedLists cs d st).2 = st
  | .nil, _, d, st => by simp [convertNestedLists]
  | .cons n ns, h, d, st => by
    rw [directListNoAnchor, Bool.and_eq_true] at h
    have h1 := convertNestedOne_frozen n h.1 d st
    have h2 := convertNestedLists_frozen ns h.2 d (convertNestedOne n d st).2
    simp only [convertNestedLists]
    rw [h2, h1]

theorem convertNestedOne_frozen : ∀ (n : HNode), nestedOneSafe n = true →
    ∀ (d : Nat) (st : LinkState), (convertNestedOne n d st).2 = st
  | .text s, _, d, st => by simp [convertNestedOne]
  | .elem t a cs', h, d, st => by
    by_cases hu : t = "ul"
    · subst hu
      have hcs : noAnchorF cs' = true := by
        rw [nestedOneSafe] at h
        rw [noAnchorNode] at h
        simpa using h
      have h1 := convertListItems_frozen cs' hcs false (d + 1) 0 st
      simp only [convertNestedOne]
      rw [h1]
    · by_cases ho : t = "ol"
      · subst ho
        have hcs : noAnchorF cs' = true := by
          rw [nestedOneSafe] at h
          rw [noAnchorNode] at h
          simpa using h
        have h1 := convertListItems_frozen cs' hcs true (d + 1) 0 st
        simp only [convertNestedOne]
        rw [h1]
      · unfold convertNestedOne
        split <;> first
          | rfl
          | (rename_i heq; injection heq with e1 e2 e3; exact (hu e1).elim)
          | (rename_i heq; injection heq with e1 e2 e3; exact (ho e1).elim)

theorem convertBlockquoteF_frozen : ∀ (cs : HForest), noAnchorF cs = true →
    ∀ (st : LinkState), (convertBlockquoteF cs st).2 = st
  | .nil, _, st => by simp [convertBlockquoteF]
  | .cons n ns, h, st => by
    rw [noAnchorF, Bool.and_eq_true] at h
    cases n with
    | text s =>
      simpa [convertBlockquoteF] using convertBlockquoteF_frozen ns h.2 st
    | elem t a cs' =>
      have h1 := convertNode_frozen (.elem t a cs') h.1 0 st
      have h2 := convertBlockquoteF_frozen ns h.2
        (convertNode (.elem t a cs') 0 st).2
      simp only [convertBlockquoteF]
      rw [h2, h1]

end

set_option maxHeartbeats 2000000 in
mutual

theorem renderNode_frozen : ∀ (n : HNode), noAnchorNode n = true →
    ∀ (w : Int) (st : LinkState), (renderNode w n st).2 = st
  | .text s, _, w, st => by simp [renderNode]
  | .elem t a cs, h, w, st => by
    have ht : t ≠ "a" := by
      intro he
      subst he
      simp [noAnchorNode] at h
    have hcs : noAnchorF cs = true := by
      rw [noAnchorNode, if_neg ht] at h
      exact h
    have hI := renderInlineF_frozen cs hcs st
    have hC := renderChildrenF_frozen cs hcs w st
    have hLu := renderListItemsF_frozen cs hcs false 0 st
    have hLo := renderListItemsF_frozen cs hcs true 0 st
    unfold renderNode
    split <;> first
      | rfl
      | exact absurd rfl ht
      | exact hI
      | exact hC
      | exact hLu
      | exact hLo

theorem renderChildrenF_frozen : ∀ (cs : HForest), noAnchorF cs = true →
    ∀ (w : Int) (st : LinkState), (renderChildrenF w cs st).2 = st
  | .nil, _, w, st => by simp [renderChildrenF]
  | .cons n ns, h, w, st => by
    rw [noAnchorF, Bool.and_eq_true] at h
    cases n with
    | text s =>
      simpa [renderChildrenF] using renderChildrenF_frozen ns h.2 w st
    | elem t a cs' =>
      have h1 := renderNode_frozen (.elem t a cs') h.1 w st
      have h2 := renderChildrenF_frozen ns h.2 w
        (renderNode w (.elem t a cs') st).2
      simp only [renderChildrenF]
      rw [h2, h1]

theorem renderInlineNode_frozen : ∀ (n : HNode), noAnchorNode n = true →
    ∀ (st : LinkState), (renderInlineNode n st).2 = st
  | .text s, _, st => by simp [renderInlineNode]
  | .elem t a cs, h, st => by
    have ht : t ≠ "a" := by
      intro he
      subst he
      simp [noAnchorNode] at h
    have hcs : noAnchorF cs = true := by
      rw [noAnchorNode, if_neg ht] at h
      exact h
    have hI := renderInlineF_frozen cs hcs st
    unfold renderInlineNode
    split <;> first
      | rfl
      | exact absurd rfl ht
      | exact hI

theorem renderInlineF_frozen : ∀ (cs : HForest), noAnchorF cs = true →
    ∀ (st : LinkState), (renderInlineF cs st).2 = st
  | .nil, _, st => by simp [renderInlineF]
  | .cons n ns, h, st => by
    rw [noAnchorF, Bool.and_eq_true] at h
    have h1 := renderInlineNode_frozen n h.1 st
    have h2 := renderInlineF_frozen ns h.2 (renderInlineNode n st).2
    simp only [renderInlineF]
    rw [h2, h1]

theorem renderListItemsF_frozen : ∀ (cs : HForest), noAnchorF cs = true →
    ∀ (ord : Bool) (i : Nat) (st : LinkState),
      (renderListItemsF cs ord i st).2 = st
  | .nil, _, ord, i, st => by simp [renderListItemsF]
  | .cons n ns, h, ord, i, st => by
    rw [noAnchorF, Bool.and_eq_true] at h
    unfold renderListItemsF
    split
    · rename_i a ics
      have h1 := renderListItemFB_frozen (.elem "li" a ics) h.1 ord (i + 1) st
      have h2 := renderListItemsF_frozen ns h.2 ord (i + 1)
        (renderListItemFB (.elem "li" a ics) ord (i + 1) st).2
      simp only []
      rw [h2, h1]
    · exact renderListItemsF_frozen ns h.2 ord i st

theorem renderListItemFB_frozen : ∀ (n : HNode), noAnchorNode n = true →
    ∀ (ord : Bool) (i : Nat) (st : LinkState),
      (renderListItemFB n ord i st).2 = st
  | .text s, _, ord, i, st => by simp [renderListItemFB]
  | .elem t a ics, h, ord, i, st => by
    have ht : t ≠ "a" := by
      intro he
      subst he
      simp [noAnchorNode] at h
    have hcs : noAnchorF ics = true := by
      rw [noAnchorNode, if_neg ht] at h
      exact h
    have h1 := renderInlineF_frozen ics hcs st
    by_cases hli : t = "li"
    · subst hli
      simp only [renderListItemFB]
      rw [h1]
    · unfold renderListItemFB
      split <;> first
        | rfl
        | (rename_i heq; injection heq with e1 e2 e3; exact (hli e1).elim)

end

lemma linkF_state_eq (attrs : List (String × String)) (cs : HForest)
    (st : LinkState) :
    (convertLinkF attrs cs st).2 = (renderLinkFB attrs cs st).2 := by
  simp only [convertLinkF, renderLinkFB]
  split
  · rfl
  · rfl

set_option maxHeartbeats 2000000 in
mutual

theorem nodeEq : ∀ (n : HNode), safeNode n = true →
    ∀ (d : Nat) (w : Int) (st : LinkState),
      (convertNode n d st).2 = (renderNode w n st).2
  | .text s, _, d, w, st => by simp [convertNode, renderNode]
  | .elem t a cs, h, d, w, st => by
    unfold convertNode renderNode
    split <;> first
      | rfl
      | exact linkF_state_eq a cs st
      | exact inlineFEq cs h st
      | exact itemsEq cs h false d 0 st
      | exact itemsEq cs h true d 0 st
      | exact convertBlockquoteF_frozen cs h st
      | exact convertInlineF_frozen cs h st
      | exact childrenEq cs h d w st
      | exact (renderChildrenF_frozen cs h w st).symm
      | (split <;> first | rfl | simp_all)

theorem childrenEq : ∀ (cs : HForest), safeChildrenF cs = true →
    ∀ (d : Nat) (w : Int) (st : LinkState),
      (convertChildren cs d st).2 = (renderChildrenF w cs st).2
  | .nil, _, d, w, st => by simp [convertChildren, renderChildrenF]
  | .cons n ns, h, d, w, st => by
    rw [safeChildrenF, Bool.and_eq_true] at h
    cases n with
    | text s =>
      simpa [convertChildren, renderChildrenF] using
        childrenEq ns h.2 d w st
    | elem t a cs' =>
      have e1 := nodeEq (.elem t a cs') h.1 d w st
      have e2 := childrenEq ns h.2 d w (convertNode (.elem t a cs') d st).2
      simp only [convertChildren, renderChildrenF]
      rw [e2, e1]

theorem inlineNodeEq : ∀ (n : HNode), inlineSafeNode n = true →
    ∀ (st : LinkState), (convertInlineNode n st).2 = (renderInlineNode n st).2
  | .text s, _, st => by simp [convertInlineNode, renderInlineNode]
  | .elem t a cs, h, st => by
    unfold convertInlineNode renderInlineNode
    split <;> first
      | rfl
      | exact linkF_state_eq a cs st
      | exact convertInlineF_frozen cs h st
      | (rename_i h1 h2 h3 h4 h5 h6 h7
         rw [inlineSafeNode, if_neg h1,
           if_neg (by rintro (he | he | he | he)
                      exacts [h2 he, h3 he, h4 he, h5 he]),
           if_neg (by rintro (he | he)
                      exacts [h6 he, h7 he])] at h
         exact inlineFEq cs h st)

theorem inlineFEq : ∀ (cs : HForest), inlineSafeF cs = true →
    ∀ (st : LinkState), (convertInlineF cs st).2 = (renderInlineF cs st).2
  | .nil, _, st => by simp [convertInlineF, renderInlineF]
  | .cons n ns, h, st => by
    rw [inlineSafeF, Bool.and_eq_true] at h
    have e1 := inlineNodeEq n h.1 st
    have e2 := inlineFEq ns h.2 (convertInlineNode n st).2
    simp only [convertInlineF, renderInlineF]
    rw [e2, e1]

theorem itemsEq : ∀ (cs : HForest), listSafeF cs = true →
    ∀ (ord : Bool) (d i : Nat) (st : LinkState),
      (convertListItems cs ord d i st).2 = (renderListItemsF cs ord i st).2
  | .nil, _, ord, d, i, st => by simp [convertListItems, renderListItemsF]
  | .cons n ns, h, ord, d, i, st => by
    rw [listSafeF, Bool.and_eq_true] at h
    obtain ⟨h1, h2⟩ := h
    cases n with
    | text s => exact itemsEq ns h2 ord d i st
    | elem t a ics =>
      by_cases hli : t = "li"
      · subst hli
        have e1 := itemEq (.elem "li" a ics) h1 ord d (i + 1) st
        have e2 := itemsEq ns h2 ord d (i + 1)
          (convertListItem (.elem "li" a ics) ord d (i + 1) st).2
        simp only [convertListItems, renderListItemsF]
        rw [e2, e1]
      · unfold convertListItems renderListItemsF
        split
        · rename_i heq
          injection heq with e1 e2 e3
          exact (hli e1).elim
        · exact itemsEq ns h2 ord d i st

theorem itemEq : ∀ (n : HNode), liSafeNode n = true →
    ∀ (ord : Bool) (d i : Nat) (st : LinkState),
      (convertListItem n ord d i st).2 = (renderListItemFB n ord i st).2
  | .text s, _, ord, d, i, st => by simp [convertListItem, renderListItemFB]
  | .elem t a ics, h, ord, d, i, st => by
    by_cases hli : t = "li"
    · subst hli
      have h' : (inlineSafeF ics && directListNoAnchor ics) = true := h
      rw [Bool.and_eq_true] at h'
      obtain ⟨hs1, hs2⟩ := h'
      have e0 := convertNestedLists_frozen ics hs2 d
        (convertInlineF ics st).2
      have e1 := inlineFEq ics hs1 st
      simp only [convertListItem, renderListItemFB]
      rw [e0, e1]
    · unfold convertListItem renderListItemFB
      split
      · rename_i heq
        injection heq with e1 e2 e3
        exact (hli e1).elim
      · rfl

end

/-- An anchor inside a blockquote, where the two paths disagree. -/
def blockquoteAnchorArticle : ArticleDoc :=
  { title := "", byline := "", textContent := "",
    body := forestOf [.elem "blockquote" []
      (forestOf [.elem "p" []
        (forestOf [.elem "a" [("href", "https://e.com")]
          (forestOf [.text "t"])])])] }

/-- **C2, counterexample.** On a document holding one anchor inside a
blockquote, the primary path registers the link (index 1) while the
fallback path — which flattens blockquotes to plain text — registers
nothing: the link lists differ in count and index-to-target mapping,
refuting the claimed equivalence of the two paths on every input. -/
theorem transformer_paths_counterexample :
    (Render blockquoteAnchorArticle 80).links =
      [{ index := 1, text := "t", url := "https://e.com" }] ∧
    (RenderFallback blockquoteAnchorArticle 80).links = [] := by
  constructor <;> rfl

/-- **C2, amended.** For every input document in the safe fragment — no
anchors anywhere inside blockquotes, inside `strong`/`em`/`b`/`i`
elements (in inline position or at block level: the fallback flattens
emphasis to plain text in both), inside figure captions, or inside
nested lists — and any display widths, the primary
transformer path (`Render`) and the fallback path (`RenderFallback`)
produce identical link lists: the same count, the same order, and the
same index-to-URL assignment, differing only in visual styling of the
text.  Outside that fragment the paths can differ (see the
counterexample). -/
theorem transformer_paths_equivalent (article : ArticleDoc)
    (width1 width2 : Int) (h : safeChildrenF article.body = true) :
    (Render article width1).links = (RenderFallback article width2).links :=
  congrArg LinkState.links (childrenEq article.body h 0 _ initLinkState)

/-- A concrete safe document: a paragraph with one anchor and a flat
list. -/
def safeWitnessArticle : ArticleDoc :=
  { title := "W", byline := "", textContent := "",
    body := forestOf [
      .elem "p" [] (forestOf [.text "see ",
        .elem "a" [("href", "https://w.org")] (forestOf [.text "w"])]),
      .elem "ul" [] (forestOf [.elem "li" [] (forestOf [.text "x"])])] }

/-- Witness for `transformer_paths_equivalent` on `safeWitnessArticle`. -/
theorem transformer_paths_equivalent_witness :
    safeChildrenF safeWitnessArticle.body = true ∧
    (Render safeWitnessArticle 80).links =
      (RenderFallback safeWitnessArticle 80).links :=
  ⟨by decide, transformer_paths_equivalent safeWitnessArticle 80 80 (by decide)⟩

/-! ## Session controller (`internal/app`, bubbletea `Model`)

The event loop processes one message at a time (`Update`).  The embedding
keeps the session-relevant state: tabs, per-tab state, the mode machine,
the leader overlay, the URL/command bars' values, the status bar, the
page cache, and cancellation bookkeeping.  A Go `context.WithCancel` pair
becomes a fresh numeric context id plus a set of cancelled ids; calling
the stored `cancelFunc` adds its id to the set.  Purely visual widget
internals (viewport scrolling, panel cursors, split-pane geometry, theme
colors) and the persistent stores (sqlite) are external collaborators:
the stores and the text-input editing function are supplied as an
environment of oracles, and a viewport is just its content string. -/

/-- `Mode` from the `app` package. -/
inductive Mode where
  | normal | insert | command | follow | search | history | leader
deriving Repr, DecidableEq

/-- `ui.CommandType` (`CommandNone` is represented as `none`). -/
inductive CommandType where
  | ex | search | follow
deriving Repr, DecidableEq

/-- `ui.Tab`. -/
structure Tab where
  id : Nat
  title : String
  url : String
deriving Repr, DecidableEq

/-- `ui.TabBar` (display-only width fields omitted). -/
structure TabBar where
  tabs : List Tab
  active : Nat
  nextID : Nat
deriving Repr, DecidableEq

/-- `ui.NewTabBar`: one initial tab with id 1. -/
def newTabBar : TabBar :=
  { tabs := [{ id := 1, title := "New Tab", url := "" }], active := 0,
    nextID := 1 }

/-- `TabBar.ActiveTab`. -/
def TabBar.activeTab (tb : TabBar) : Option Tab := tb.tabs.get? tb.active

/-- `TabBar.NewTab`: insert after the current tab and switch to it. -/
def TabBar.newTab (tb : TabBar) : TabBar :=
  let nextID := tb.nextID + 1
  let tab : Tab := { id := nextID, title := "New Tab", url := "" }
  let insertAt := min (tb.active + 1) tb.tabs.length
  { tabs := tb.tabs.take insertAt ++ [tab] ++ tb.tabs.drop insertAt,
    active := insertAt, nextID := nextID }

/-- `TabBar.CloseTab`: refuses to close the last tab. -/
def TabBar.closeTab (tb : TabBar) (idx : Nat) : Bool × TabBar :=
  if tb.tabs.length ≤ 1 then (false, tb)
  else if idx ≥ tb.tabs.length then (false, tb)
  else
    let tabs := tb.tabs.take idx ++ tb.tabs.drop (idx + 1)
    let active :=
      if tb.active ≥ tabs.length then tabs.length - 1
      else if tb.active > idx then tb.active - 1
      else tb.active
    (true, { tb with tabs := tabs, active := active })

/-- `TabBar.CloseCurrentTab`. -/
def TabBar.closeCurrentTab (tb : TabBar) : Bool × TabBar :=
  tb.closeTab tb.active

/-- `TabBar.NextTab`. -/
def TabBar.nextTab (tb : TabBar) : TabBar :=
  if tb.tabs.length > 1 then
    { tb with active := (tb.active + 1) % tb.tabs.length }
  else tb

/-- `TabBar.PrevTab`. -/
def TabBar.prevTab (tb : TabBar) : TabBar :=
  if tb.tabs.length > 1 then
    { tb with active := if tb.active = 0 then tb.tabs.length - 1
                        else tb.active - 1 }
  else tb

/-- `TabBar.SetActiveTitle`. -/
def TabBar.setActiveTitle (tb : TabBar) (title : String) : TabBar :=
  match tb.tabs.get? tb.active with
  | some t => { tb with tabs := tb.tabs.set tb.active { t with title := title } }
  | none => tb

/-- `TabBar.SetActiveURL`. -/
def TabBar.setActiveURL (tb : TabBar) (url : String) : TabBar :=
  match tb.tabs.get? tb.active with
  | some t => { tb with tabs := tb.tabs.set tb.active { t with url := url } }
  | none => tb

/-- `tabState` from the `app` package: the viewport is its content
string; the cancellation handle is the context id of the in-flight load. -/
structure TabStateM where
  viewportContent : String
  history : History
  page : Option RenderedPage
  feedLinks : List Link
  loading : Bool
  cancelFunc : Option Nat
deriving Repr, DecidableEq

/-- A freshly created `tabState`. -/
def newTabStateM : TabStateM :=
  { viewportContent := "", history := newHistory, page := none,
    feedLinks := [], loading := false, cancelFunc := none }

/-- The status bar's session-relevant fields. -/
structure StatusBarM where
  mode : String
  message : String
  loading : Bool
  title : String
  url : String
  linkCount : Nat
deriving Repr, DecidableEq

/-- The external collaborators, as oracles: adapter URL classification
(`feeds.ParseRedditURL`/`ParseGitHubURL`, which depend on `net/url` and
regexps), the persistent stores, the theme registry, and the text-input
editing function of the view layer. -/
structure Env where
  isRedditURL : String → Bool
  isGitHubURL : String → Bool
  bookmarksAvailable : Bool
  bookmarkAdd : String → String → Bool
  bookmarksRender : String × List Link
  readLaterAvailable : Bool
  readLaterAdd : String → String → Bool
  readLaterRender : String × List Link
  historyAvailable : Bool
  themeSetOk : String → Bool
  themeListText : String
  nextThemeName : String
  currentThemeName : String
  historySelected : Option String
  typeKey : String → String → String

/-- The session-relevant fields of `app.Model`. -/
structure ModelM where
  tabBar : TabBar
  urlBarValue : String
  urlBarFocused : Bool
  commandBarType : Option CommandType
  commandBarValue : String
  tabStates : List (Nat × TabStateM)
  mode : Mode
  lastGKey : Bool
  leaderVisible : Bool
  historyVisible : Bool
  statusBar : StatusBarM
  pageCache : List (String × RenderedPage)
  cancelled : List Nat
  nextCtx : Nat
  width : Int
deriving Repr, DecidableEq

/-- `m.tabStates[id]` (Go map lookup). -/
def lookupTS (states : List (Nat × TabStateM)) (id : Nat) :
    Option TabStateM :=
  match states.find? (fun p => p.1 = id) with
  | some p => some p.2
  | none => none

/-- Map update / insert. -/
def setTS (states : List (Nat × TabStateM)) (id : Nat) (ts : TabStateM) :
    List (Nat × TabStateM) :=
  if (states.find? (fun p => p.1 = id)).isSome then
    states.map (fun p => if p.1 = id then (id, ts) else p)
  else states ++ [(id, ts)]

/-- `delete(m.tabStates, id)`. -/
def delTS (states : List (Nat × TabStateM)) (id : Nat) :
    List (Nat × TabStateM) :=
  states.filter (fun p => p.1 ≠ id)

/-- `lru.Cache.Get`: a hit promotes the entry to most-recently-used
(front).  Returns the value and the updated cache. -/
def cacheGet (c : List (String × RenderedPage)) (k : String) :
    Option RenderedPage × List (String × RenderedPage) :=
  match c.find? (fun p => p.1 = k) with
  | some p => (some p.2, (k, p.2) :: c.filter (fun q => q.1 ≠ k))
  | none => (none, c)

/-- `lru.Cache.Add` with capacity 50: insert at front (replacing any
entry with the same key) and evict beyond the capacity. -/
def cacheAdd (c : List (String × RenderedPage)) (k : String)
    (v : RenderedPage) : List (String × RenderedPage) :=
  ((k, v) :: c.filter (fun q => q.1 ≠ k)).take 50

/-- The messages the event loop handles (window-size messages only touch
layout and are omitted). -/
inductive Msg where
  | key (k : String)
  | pageLoaded (tabID : Nat) (page : Option RenderedPage) (url : String)
      (err : Option String)
  | feedLoaded (tabID : Nat) (content : String) (title : String)
      (links : List Link) (err : Option String)
  | leaderTimeout
deriving Repr, DecidableEq

/-- The commands (`tea.Cmd`) the controller can return.  Text-input
focus/blink commands carry no session-state effect and are omitted. -/
inductive Cmd where
  | quit
  | tickLeader
  | emitMsg (msg : Msg)
  | startFetch (tabID ctx : Nat) (url : String) (width : Int)
  | startAdapter (tabID : Nat) (url : String)
  | startFeedFetch (tabID : Nat) (kind arg : String)
deriving Repr, DecidableEq

/-- `New(startURL)`: the initial model (storage handles are external). -/
def newModel : ModelM :=
  { tabBar := newTabBar, urlBarValue := "", urlBarFocused := false,
    commandBarType := none, commandBarValue := "",
    tabStates := [(1, newTabStateM)], mode := .normal, lastGKey := false,
    leaderVisible := false, historyVisible := false,
    statusBar := { mode := "NORMAL", message := "", loading := false,
                   title := "", url := "", linkCount := 0 },
    pageCache := [], cancelled := [], nextCtx := 0, width := 0 }

/-- `Model.loadPage(url, pushHistory)`: cancel any in-flight load for the
active tab, consult the page cache (a hit returns the cached page as an
immediate message, with no fetch), otherwise mark loading, record
history, delegate Reddit/GitHub URLs to their adapters, and start the
generic fetch task under a fresh cancellable context. -/
def ModelM.loadPage (env : Env) (m : ModelM) (url : String)
    (pushHistory : Bool) : ModelM × Option Cmd :=
  match m.tabBar.activeTab with
  | none => (m, none)
  | some tab =>
    match lookupTS m.tabStates tab.id with
    | none => (m, none)
    | some ts =>
      let tabID := tab.id
      let m :=
        match ts.cancelFunc with
        | some c => { m with cancelled := c :: m.cancelled }
        | none => m
      match cacheGet m.pageCache url with
      | (some cachedPage, cache') =>
        let ts := { ts with loading := false }
        let ts := if pushHistory then { ts with history := ts.history.push url }
                  else ts
        ({ m with
            pageCache := cache',
            statusBar := { m.statusBar with loading := false },
            urlBarValue := url,
            tabBar := m.tabBar.setActiveURL url,
            tabStates := setTS m.tabStates tabID ts },
         some (.emitMsg (.pageLoaded tabID (some cachedPage) url none)))
      | (none, _) =>
        let ts := { ts with loading := true }
        let m := { m with
          statusBar := { m.statusBar with loading := true, message := "" },
          urlBarValue := url,
          tabBar := (m.tabBar.setActiveTitle "Loading...").setActiveURL url }
        let ts := if pushHistory then { ts with history := ts.history.push url }
                  else ts
        if env.isRedditURL url then
          ({ m with tabStates := setTS m.tabStates tabID ts },
           some (.startAdapter tabID url))
        else if env.isGitHubURL url then
          ({ m with tabStates := setTS m.tabStates tabID ts },
           some (.startAdapter tabID url))
        else
          let ctx := m.nextCtx
          let ts := { ts with cancelFunc := some ctx }
          let renderWidth : Int := if m.width ≤ (0 : Int) then 80 else m.width
          ({ m with
              nextCtx := m.nextCtx + 1,
              tabStates := setTS m.tabStates tabID ts },
           some (.startFetch tabID ctx url renderWidth))

/-- `Model.navigateTo`. -/
def ModelM.navigateTo (env : Env) (m : ModelM) (url : String) :
    ModelM × Option Cmd :=
  m.loadPage env url true

/-- The outcome of the background fetch→extract→render pipeline of one
generic page load (the fetch may fail — including by cancellation of its
context — or extraction may fail; otherwise a page is rendered). -/
inductive LoadOutcome where
  | fetchError (e : String)
  | extractError (e : String)
  | success (finalURL : String) (page : RenderedPage)
deriving Repr, DecidableEq

/-- The closure returned by `loadPage` for a generic page: on success the
page is added to the shared cache keyed by the final (post-redirect)
location, and a `pageLoadedMsg` is reported; errors report the original
URL and no cache write happens.  Cancelling the context makes the fetch
fail (a `fetchError`) unless it had already completed. -/
def runFetchTask (tabID : Nat) (url : String) (outcome : LoadOutcome)
    (cache : List (String × RenderedPage)) :
    Msg × List (String × RenderedPage) :=
  match outcome with
  | .fetchError e => (.pageLoaded tabID none url (some e), cache)
  | .extractError e => (.pageLoaded tabID none url (some e), cache)
  | .success finalURL page =>
    (.pageLoaded tabID (some page) finalURL none,
     cacheAdd cache finalURL page)

/-- The error placeholder rendered into a tab's viewport on a failed
load (styles are identity on text, as before). -/
def errorPlaceholder (url e : String) : String :=
  "Failed to load page" ++ "\n\n" ++ "URL: " ++ url ++ "\nError: " ++ e

/-- `Model.handlePageLoaded`: the only validation is that the tab still
exists; the message is then applied — error messages render the error
placeholder and retitle the tab, success messages replace the tab's page.
(`historyStore.Add` and scroll-position syncing are external.) -/
def ModelM.handlePageLoaded (m : ModelM) (tabID : Nat)
    (page? : Option RenderedPage) (url : String) (err : Option String) :
    ModelM :=
  match lookupTS m.tabStates tabID with
  | none => m
  | some ts =>
    let ts := { ts with loading := false, cancelFunc := none }
    match err with
    | some e =>
      { m with
        statusBar := { m.statusBar with
          loading := false
          message := "Error: " ++ e },
        tabStates := setTS m.tabStates tabID
          { ts with viewportContent := errorPlaceholder url e },
        tabBar := m.tabBar.setActiveTitle "Error" }
    | none =>
      match page? with
      | none => m
      | some page =>
        { m with
          tabStates := setTS m.tabStates tabID
            { ts with page := some page, viewportContent := page.content },
          tabBar := (m.tabBar.setActiveTitle page.title).setActiveURL url,
          urlBarValue := url,
          statusBar := { m.statusBar with
            loading := false
            title := page.title
            url := url
            linkCount := page.links.length } }

/-- `Model.handleFeedLoaded`: like `handlePageLoaded` but clears the
tab's `page` and stores the feed links on success. -/
def ModelM.handleFeedLoaded (m : ModelM) (tabID : Nat) (content : String)
    (title : String) (links : List Link) (err : Option String) : ModelM :=
  match lookupTS m.tabStates tabID with
  | none => m
  | some ts =>
    let ts := { ts with loading := false }
    match err with
    | some e =>
      { m with
        statusBar := { m.statusBar with
          loading := false
          message := "Error: " ++ e },
        tabStates := setTS m.tabStates tabID
          { ts with viewportContent :=
              "Failed to load feed" ++ "\n\n" ++ "Error: " ++ e },
        tabBar := m.tabBar.setActiveTitle "Error" }
    | none =>
      { m with
        tabStates := setTS m.tabStates tabID
          { ts with
            page := none
            feedLinks := links
            viewportContent := content },
        tabBar := m.tabBar.setActiveTitle title,
        statusBar := { m.statusBar with
          loading := false
          title := title
          message := ""
          linkCount := links.length } }

/-- Digit-sequence accumulator for `goAtoi`. -/
def digitsToNatAux : List Char → Nat → Option Nat
  | [], acc => some acc
  | c :: cs, acc =>
    if '0' ≤ c ∧ c ≤ '9' then
      digitsToNatAux cs (acc * 10 + (c.toNat - 48))
    else none

/-- A non-empty all-digit sequence as a number. -/
def digitsToNat (ds : List Char) : Option Nat :=
  if ds = [] then none else digitsToNatAux ds 0

/-- Go `strconv.Atoi`: optional sign then digits (the 64-bit overflow
error is not modelled). -/
def goAtoi (s : String) : Option Int :=
  match s.toList with
  | [] => none
  | c :: ds =>
    if c = '+' then (digitsToNat ds).map Int.ofNat
    else if c = '-' then (digitsToNat ds).map (fun n => -(n : Int))
    else (digitsToNat (c :: ds)).map Int.ofNat

/-- `Model.followLink(input)`: resolve a submitted numeric token first
against the page links, then against the feed links; first match wins;
otherwise a "not found" status message. -/
def ModelM.followLink (env : Env) (m : ModelM) (input : String) :
    ModelM × Option Cmd :=
  match m.tabBar.activeTab with
  | none =>
    ({ m with statusBar := { m.statusBar with
        message := "No page loaded" } }, none)
  | some tab =>
    match lookupTS m.tabStates tab.id with
    | none =>
      ({ m with statusBar := { m.statusBar with
          message := "No page loaded" } }, none)
    | some ts =>
      match goAtoi (goTrimSpace input) with
      | none =>
        ({ m with statusBar := { m.statusBar with
            message := "Invalid link number: " ++ input } }, none)
      | some num =>
        match ts.page with
        | some page =>
          match page.links.find? (fun l => (l.index : Int) = num) with
          | some link => m.navigateTo env link.url
          | none =>
            match ts.feedLinks.find? (fun l => (l.index : Int) = num) with
            | some link => m.navigateTo env link.url
            | none =>
              ({ m with statusBar := { m.statusBar with
                  message := "Link [" ++ toString num ++ "] not found" } },
               none)
        | none =>
          match ts.feedLinks.find? (fun l => (l.index : Int) = num) with
          | some link => m.navigateTo env link.url
          | none =>
            ({ m with statusBar := { m.statusBar with
                message := "Link [" ++ toString num ++ "] not found" } },
             none)

/-- `ui.StatusBar.SetMessage`. -/
def ModelM.statusSetMessage (m : ModelM) (s : String) : ModelM :=
  { m with statusBar := { m.statusBar with message := s } }

/-- `ui.StatusBar.SetMode`. -/
def ModelM.statusSetMode (m : ModelM) (s : String) : ModelM :=
  { m with statusBar := { m.statusBar with mode := s } }

/-- `ui.StatusBar.SetLoading`. -/
def ModelM.statusSetLoading (m : ModelM) (b : Bool) : ModelM :=
  { m with statusBar := { m.statusBar with loading := b } }

/-- `ui.StatusBar.SetTitle`. -/
def ModelM.statusSetTitle (m : ModelM) (s : String) : ModelM :=
  { m with statusBar := { m.statusBar with title := s } }

/-- `ui.StatusBar.SetLinkCount`. -/
def ModelM.statusSetLinkCount (m : ModelM) (n : Nat) : ModelM :=
  { m with statusBar := { m.statusBar with linkCount := n } }

/-- `Model.syncStatusBar` (scroll info is display-only). -/
def ModelM.syncStatusBar (m : ModelM) : ModelM :=
  match m.tabBar.activeTab with
  | none => m
  | some tab =>
    match lookupTS m.tabStates tab.id with
    | none => m
    | some ts =>
      let sb := { m.statusBar with url := tab.url, title := tab.title }
      let sb :=
        match ts.page with
        | some p => { sb with linkCount := p.links.length }
        | none =>
          if ts.feedLinks.length > 0 then
            { sb with linkCount := ts.feedLinks.length }
          else sb
      { m with statusBar := sb }

/-- `Model.syncTabUI`. -/
def ModelM.syncTabUI (m : ModelM) : ModelM :=
  let m :=
    match m.tabBar.activeTab with
    | some tab => { m with urlBarValue := tab.url }
    | none => m
  m.syncStatusBar

/-- The static help text assembled by `showHelp` (display-only contents,
abbreviated here to its heading). -/
def helpContent : String := "tsurf Keybindings"

/-- `Model.showHelp`. -/
def ModelM.showHelp (m : ModelM) : ModelM :=
  match m.tabBar.activeTab with
  | none => m
  | some tab =>
    match lookupTS m.tabStates tab.id with
    | none => m
    | some ts =>
      let m := { m with
        tabStates := setTS m.tabStates tab.id
          { ts with viewportContent := helpContent },
        tabBar := m.tabBar.setActiveTitle "Help - Keybindings" }
      (m.statusSetTitle "Help - Keybindings").statusSetLinkCount 0

/-- `Model.cycleTheme` (the theme registry is external). -/
def ModelM.cycleTheme (env : Env) (m : ModelM) : ModelM × Option Cmd :=
  (m.statusSetMessage ("Theme: " ++ env.nextThemeName), none)

/-- `Model.executeCommand`: the `:`-command dispatch. -/
def ModelM.executeCommand (env : Env) (m : ModelM) (cmd : String) :
    ModelM × Option Cmd :=
  match goFields cmd with
  | [] => (m, none)
  | p0 :: rest =>
    if p0 = "q" ∨ p0 = "quit" then (m, some .quit)
    else if p0 = "o" ∨ p0 = "open" then
      if rest ≠ [] then m.navigateTo env (String.intercalate " " rest)
      else (m.statusSetMessage "Usage: :open <url>", none)
    else if p0 = "theme" then
      match rest with
      | t1 :: _ =>
        if env.themeSetOk t1 then (m.statusSetMessage ("Theme: " ++ t1), none)
        else
          (m.statusSetMessage ("Unknown theme: " ++ t1 ++ " (available: " ++
            env.themeListText ++ ")"), none)
      | [] =>
        (m.statusSetMessage ("Current: " ++ env.currentThemeName ++
          " | Available: " ++ env.themeListText), none)
    else if p0 = "tab" ∨ p0 = "tabnew" then
      let m := { m with tabBar := m.tabBar.newTab }
      let m :=
        match m.tabBar.activeTab with
        | some tab =>
          { m with tabStates := setTS m.tabStates tab.id newTabStateM }
        | none => m
      let m := m.syncTabUI
      if rest ≠ [] then m.navigateTo env (String.intercalate " " rest)
      else (m, none)
    else if p0 = "tabclose" ∨ p0 = "tc" then
      match m.tabBar.activeTab with
      | none => (m, none)
      | some tab =>
        let r := m.tabBar.closeCurrentTab
        if r.1 then
          (({ m with
              tabBar := r.2
              tabStates := delTS m.tabStates tab.id }).syncTabUI, none)
        else (m, none)
    else if p0 = "split" ∨ p0 = "vs" ∨ p0 = "vsplit" ∨ p0 = "sp" ∨
      p0 = "hsplit" ∨ p0 = "unsplit" then (m, none)
    else if p0 = "help" then (m.showHelp, none)
    else if p0 = "hn" then
      let category := rest.headD "top"
      let m := (m.statusSetLoading true).statusSetMessage
        "Loading Hacker News..."
      match m.tabBar.activeTab with
      | some tab => (m, some (.startFeedFetch tab.id "hn" category))
      | none => (m, none)
    else if p0 = "reddit" then
      let subreddit := rest.headD "programming"
      let m := (m.statusSetLoading true).statusSetMessage
        ("Loading r/" ++ subreddit ++ "...")
      match m.tabBar.activeTab with
      | some tab => (m, some (.startFeedFetch tab.id "reddit" subreddit))
      | none => (m, none)
    else if p0 = "rss" then
      match rest with
      | feedURL :: _ =>
        let m := (m.statusSetLoading true).statusSetMessage "Loading feed..."
        match m.tabBar.activeTab with
        | some tab => (m, some (.startFeedFetch tab.id "rss" feedURL))
        | none => (m, none)
      | [] => (m.statusSetMessage "Usage: :rss <url>", none)
    else if p0 = "search" then
      if rest ≠ [] then
        let query := String.intercalate " " rest
        let m := (m.statusSetLoading true).statusSetMessage
          ("Searching: " ++ query ++ "...")
        match m.tabBar.activeTab with
        | some tab => (m, some (.startFeedFetch tab.id "search" query))
        | none => (m, none)
      else (m.statusSetMessage "Usage: :search <query>", none)
    else if p0 = "bookmarks" ∨ p0 = "bm" then
      if env.bookmarksAvailable then
        match m.tabBar.activeTab with
        | none => (m, none)
        | some tab =>
          match lookupTS m.tabStates tab.id with
          | none => (m, none)
          | some ts =>
            let m := { m with
              tabStates := setTS m.tabStates tab.id
                { ts with
                  page := none
                  feedLinks := env.bookmarksRender.2
                  viewportContent := env.bookmarksRender.1 },
              tabBar := m.tabBar.setActiveTitle "Bookmarks" }
            ((m.statusSetTitle "Bookmarks").statusSetLinkCount
              env.bookmarksRender.2.length, none)
      else (m.statusSetMessage "Bookmarks not available", none)
    else if p0 = "readlater" ∨ p0 = "rl" then
      if env.readLaterAvailable then
        match m.tabBar.activeTab with
        | none => (m, none)
        | some tab =>
          match lookupTS m.tabStates tab.id with
          | none => (m, none)
          | some ts =>
            let m := { m with
              tabStates := setTS m.tabStates tab.id
                { ts with
                  page := none
                  feedLinks := env.readLaterRender.2
                  viewportContent := env.readLaterRender.1 },
              tabBar := m.tabBar.setActiveTitle "Read Later" }
            ((m.statusSetTitle "Read Later").statusSetLinkCount
              env.readLaterRender.2.length, none)
      else (m.statusSetMessage "Read later not available", none)
    else if p0 = "bookmark" then
      if env.bookmarksAvailable then
        match m.tabBar.activeTab with
        | some tab =>
          if tab.url ≠ "" then
            if env.bookmarkAdd tab.url tab.title then
              (m.statusSetMessage ("Bookmarked: " ++ tab.title), none)
            else (m.statusSetMessage "Already bookmarked", none)
          else (m.statusSetMessage "No page to bookmark", none)
        | none => (m.statusSetMessage "No page to bookmark", none)
      else (m, none)
    else if p0 = "history" then
      if env.historyAvailable then
        (((({ m with historyVisible := true, mode := .history }))).statusSetMode
          "HISTORY", none)
      else (m.statusSetMessage "History not available", none)
    else if p0 = "clearhistory" then
      if env.historyAvailable then (m.statusSetMessage "History cleared", none)
      else (m, none)
    else (m.statusSetMessage ("Unknown command: " ++ p0), none)

/-- `Model.handleCommandResult`. -/
def ModelM.handleCommandResult (env : Env) (m : ModelM)
    (ct : Option CommandType) (value : String) : ModelM × Option Cmd :=
  match ct with
  | some .ex => m.executeCommand env value
  | some .search =>
    (m.statusSetMessage ("Search: " ++ value ++ " (not yet implemented)"),
     none)
  | some .follow => m.followLink env value
  | none => (m, none)

/-- `Model.handleCommandMode` (command/search/follow): escape cancels,
enter submits the trimmed value; other keys edit the input. -/
def ModelM.handleCommandMode (env : Env) (m : ModelM) (k : String) :
    ModelM × Option Cmd :=
  if k = "esc" then
    (({ m with
        commandBarType := none
        commandBarValue := ""
        mode := .normal }).statusSetMode "NORMAL", none)
  else if k = "enter" then
    let ct := m.commandBarType
    let value := goTrimSpace m.commandBarValue
    let m := ({ m with
      commandBarType := none
      commandBarValue := ""
      mode := .normal }).statusSetMode "NORMAL"
    m.handleCommandResult env ct value
  else
    ({ m with commandBarValue := env.typeKey m.commandBarValue k }, none)

/-- `Model.handleInsertMode` (URL bar focused). -/
def ModelM.handleInsertMode (env : Env) (m : ModelM) (k : String) :
    ModelM × Option Cmd :=
  if k = "esc" then
    (({ m with mode := .normal, urlBarFocused := false }).statusSetMode
      "NORMAL", none)
  else if k = "enter" then
    let url := m.urlBarValue
    let m :=
      ({ m with mode := .normal, urlBarFocused := false }).statusSetMode
        "NORMAL"
    if url ≠ "" then m.navigateTo env url else (m, none)
  else
    ({ m with urlBarValue := env.typeKey m.urlBarValue k }, none)

/-- `Model.handleHistoryMode` (panel cursor movement is display-only;
the selected entry comes from the panel, an external widget). -/
def ModelM.handleHistoryMode (env : Env) (m : ModelM) (k : String) :
    ModelM × Option Cmd :=
  if k = "j" ∨ k = "down" ∨ k = "k" ∨ k = "up" ∨ k = "g" ∨ k = "G" ∨
    k = "ctrl+d" ∨ k = "ctrl+u" ∨ k = "d" then (m, none)
  else if k = "enter" then
    match env.historySelected with
    | some url =>
      let m := { m with tabBar := m.tabBar.newTab }
      let m :=
        match m.tabBar.activeTab with
        | some tab =>
          { m with tabStates := setTS m.tabStates tab.id newTabStateM }
        | none => m
      let m := (({ m with
        historyVisible := false
        mode := .normal }).statusSetMode "NORMAL").syncTabUI
      m.navigateTo env url
    | none => (m, none)
  else if k = "esc" ∨ k = "ctrl+h" then
    (({ m with historyVisible := false, mode := .normal }).statusSetMode
      "NORMAL", none)
  else (m, none)

/-- `Model.handleLeaderMode`: always dismiss the palette and return to
Normal first, then dispatch the key. -/
def ModelM.handleLeaderMode (env : Env) (m : ModelM) (k : String) :
    ModelM × Option Cmd :=
  let m := ({ m with leaderVisible := false, mode := .normal
    }).statusSetMode "NORMAL"
  if k = "o" then
    (({ m with mode := .insert, urlBarValue := "", urlBarFocused := true
      }).statusSetMode "INSERT", none)
  else if k = "b" then
    match m.tabBar.activeTab with
    | some tab =>
      match lookupTS m.tabStates tab.id with
      | some ts =>
        let r := ts.history.back
        if r.2.1 then
          let nts := { ts with history := r.2.2 }
          ({ m with tabStates := setTS m.tabStates tab.id nts
            }).loadPage env r.1 false
        else (m, none)
      | none => (m, none)
    | none => (m, none)
  else if k = "f" then
    match m.tabBar.activeTab with
    | some tab =>
      match lookupTS m.tabStates tab.id with
      | some ts =>
        let r := ts.history.forward
        if r.2.1 then
          let nts := { ts with history := r.2.2 }
          ({ m with tabStates := setTS m.tabStates tab.id nts
            }).loadPage env r.1 false
        else (m, none)
      | none => (m, none)
    | none => (m, none)
  else if k = "l" then
    (({ m with
        mode := .follow
        commandBarType := some .follow
        commandBarValue := "" }).statusSetMode "FOLLOW", none)
  else if k = "r" then
    match m.tabBar.activeTab with
    | some tab =>
      match lookupTS m.tabStates tab.id with
      | some ts =>
        let current := ts.history.current
        if current ≠ "" then m.loadPage env current false else (m, none)
      | none => (m, none)
    | none => (m, none)
  else if k = "t" then
    let m := { m with tabBar := m.tabBar.newTab }
    let m :=
      match m.tabBar.activeTab with
      | some tab =>
        { m with tabStates := setTS m.tabStates tab.id newTabStateM }
      | none => m
    (m.syncTabUI, none)
  else if k = "w" then
    match m.tabBar.activeTab with
    | none => (m, none)
    | some tab =>
      let r := m.tabBar.closeCurrentTab
      if r.1 then
        let m := { m with tabBar := r.2 }
        let m :=
          match lookupTS m.tabStates tab.id with
          | some ts =>
            let m :=
              match ts.cancelFunc with
              | some c => { m with cancelled := c :: m.cancelled }
              | none => m
            { m with tabStates := delTS m.tabStates tab.id }
          | none => m
        (m.syncTabUI, none)
      else (m, some .quit)
  else if k = "n" then (({ m with tabBar := m.tabBar.nextTab }).syncTabUI, none)
  else if k = "p" then (({ m with tabBar := m.tabBar.prevTab }).syncTabUI, none)
  else if k = "h" then
    let m := (m.statusSetLoading true).statusSetMessage
      "Loading Hacker News..."
    match m.tabBar.activeTab with
    | some tab => (m, some (.startFeedFetch tab.id "hn" "top"))
    | none => (m, none)
  else if k = "e" then
    (({ m with
        mode := .command
        commandBarType := some .ex
        commandBarValue := "reddit " }).statusSetMode "COMMAND", none)
  else if k = "s" then
    (({ m with
        mode := .command
        commandBarType := some .ex
        commandBarValue := "search " }).statusSetMode "COMMAND", none)
  else if k = "a" then
    (({ m with
        mode := .command
        commandBarType := some .ex
        commandBarValue := "rss " }).statusSetMode "COMMAND", none)
  else if k = "B" then m.executeCommand env "bookmarks"
  else if k = "R" then m.executeCommand env "readlater"
  else if k = "/" then
    (({ m with
        mode := .search
        commandBarType := some .search
        commandBarValue := "" }).statusSetMode "SEARCH", none)
  else if k = ":" then
    (({ m with
        mode := .command
        commandBarType := some .ex
        commandBarValue := "" }).statusSetMode "COMMAND", none)
  else if k = "H" then
    (({ m with historyVisible := true, mode := .history
      }).statusSetMode "HISTORY", none)
  else if k = "v" ∨ k = "x" then (m, none)
  else if k = "T" then m.cycleTheme env
  else if k = "?" then (m.showHelp, none)
  else (m, none)

/-- `Model.handleNormalMode`: the big key switch of normal mode. -/
def ModelM.handleNormalMode (env : Env) (m : ModelM) (k : String) :
    ModelM × Option Cmd :=
  if k = "q" then (m, some .quit)
  else if k = " " then
    (({ m with lastGKey := false, leaderVisible := true, mode := .leader
      }).statusSetMode "LEADER", some .tickLeader)
  else if k = "g" then
    if m.lastGKey then ({ m with lastGKey := false }, none)
    else ({ m with lastGKey := true }, none)
  else if k = "t" ∧ m.lastGKey then
    (({ m with lastGKey := false, tabBar := m.tabBar.nextTab }).syncTabUI,
     none)
  else if k = "T" ∧ m.lastGKey then
    (({ m with lastGKey := false, tabBar := m.tabBar.prevTab }).syncTabUI,
     none)
  else if k = "j" ∨ k = "down" ∨ k = "k" ∨ k = "up" ∨ k = "ctrl+d" ∨
    k = "ctrl+u" ∨ k = "G" then
    ({ m with lastGKey := false }, none)
  else if k = "o" then
    (({ m with
        lastGKey := false
        mode := .insert
        urlBarValue := ""
        urlBarFocused := true }).statusSetMode "INSERT", none)
  else if k = "H" then
    let m := { m with lastGKey := false }
    match m.tabBar.activeTab with
    | some tab =>
      match lookupTS m.tabStates tab.id with
      | some ts =>
        let r := ts.history.back
        if r.2.1 then
          let nts := { ts with history := r.2.2 }
          ({ m with tabStates := setTS m.tabStates tab.id nts
            }).loadPage env r.1 false
        else (m, none)
      | none => (m, none)
    | none => (m, none)
  else if k = "L" then
    let m := { m with lastGKey := false }
    match m.tabBar.activeTab with
    | some tab =>
      match lookupTS m.tabStates tab.id with
      | some ts =>
        let r := ts.history.forward
        if r.2.1 then
          let nts := { ts with history := r.2.2 }
          ({ m with tabStates := setTS m.tabStates tab.id nts
            }).loadPage env r.1 false
        else (m, none)
      | none => (m, none)
    | none => (m, none)
  else if k = "r" then
    let m := { m with lastGKey := false }
    match m.tabBar.activeTab with
    | some tab =>
      match lookupTS m.tabStates tab.id with
      | some ts =>
        let current := ts.history.current
        if current ≠ "" then m.loadPage env current false else (m, none)
      | none => (m, none)
    | none => (m, none)
  else if k = "f" then
    (({ m with
        lastGKey := false
        mode := .follow
        commandBarType := some .follow
        commandBarValue := "" }).statusSetMode "FOLLOW", none)
  else if k = "ctrl+t" then
    let m := { m with lastGKey := false, tabBar := m.tabBar.newTab }
    let m :=
      match m.tabBar.activeTab with
      | some tab =>
        { m with tabStates := setTS m.tabStates tab.id newTabStateM }
      | none => m
    (m.syncTabUI, none)
  else if k = "ctrl+w" then
    let m := { m with lastGKey := false }
    match m.tabBar.activeTab with
    | none => (m, none)
    | some tab =>
      let r := m.tabBar.closeCurrentTab
      if r.1 then
        let m := { m with tabBar := r.2 }
        let m :=
          match lookupTS m.tabStates tab.id with
          | some ts =>
            let m :=
              match ts.cancelFunc with
              | some c => { m with cancelled := c :: m.cancelled }
              | none => m
            { m with tabStates := delTS m.tabStates tab.id }
          | none => m
        (m.syncTabUI, none)
      else (m, some .quit)
  else if k = "tab" then
    (({ m with lastGKey := false, tabBar := m.tabBar.nextTab }).syncTabUI,
     none)
  else if k = "shift+tab" then
    (({ m with lastGKey := false, tabBar := m.tabBar.prevTab }).syncTabUI,
     none)
  else if k = ":" then
    (({ m with
        lastGKey := false
        mode := .command
        commandBarType := some .ex
        commandBarValue := "" }).statusSetMode "COMMAND", none)
  else if k = "/" then
    (({ m with
        lastGKey := false
        mode := .search
        commandBarType := some .search
        commandBarValue := "" }).statusSetMode "SEARCH", none)
  else if k = "?" then (({ m with lastGKey := false }).showHelp, none)
  else if k = "ctrl+\\" ∨ k = "ctrl+x" ∨ k = "ctrl+o" then
    ({ m with lastGKey := false }, none)
  else if k = "B" then
    let m := { m with lastGKey := false }
    if env.bookmarksAvailable then
      match m.tabBar.activeTab with
      | some tab =>
        if tab.url ≠ "" then
          if env.bookmarkAdd tab.url tab.title then
            (m.statusSetMessage ("Bookmarked: " ++ tab.title), none)
          else (m.statusSetMessage "Already bookmarked", none)
        else (m.statusSetMessage "No page to bookmark", none)
      | none => (m.statusSetMessage "No page to bookmark", none)
    else (m, none)
  else if k = "R" then
    let m := { m with lastGKey := false }
    if env.readLaterAvailable then
      match m.tabBar.activeTab with
      | some tab =>
        if tab.url ≠ "" then
          if env.readLaterAdd tab.url tab.title then
            (m.statusSetMessage ("Added to read later: " ++ tab.title), none)
          else (m.statusSetMessage "Already in read later", none)
        else (m.statusSetMessage "No page to save", none)
      | none => (m.statusSetMessage "No page to save", none)
    else (m, none)
  else if k = "ctrl+h" then
    let m := { m with lastGKey := false }
    if m.historyVisible then
      (({ m with historyVisible := false, mode := .normal
        }).statusSetMode "NORMAL", none)
    else
      (({ m with historyVisible := true, mode := .history
        }).statusSetMode "HISTORY", none)
  else ({ m with lastGKey := false }, none)

/-- `Model.handleKeyMsg`: ctrl+c always quits; otherwise dispatch on the
active mode. -/
def ModelM.handleKeyMsg (env : Env) (m : ModelM) (k : String) :
    ModelM × Option Cmd :=
  if k = "ctrl+c" then (m, some .quit)
  else
    match m.mode with
    | .insert => m.handleInsertMode env k
    | .command => m.handleCommandMode env k
    | .search => m.handleCommandMode env k
    | .follow => m.handleCommandMode env k
    | .history => m.handleHistoryMode env k
    | .leader => m.handleLeaderMode env k
    | .normal => m.handleNormalMode env k

/-- `Model.Update`: the single-threaded event loop step.  A
`leaderTimeoutMsg` is acted on only when Leader is still the active mode;
nothing cancels the underlying 2-second `tea.Tick` timer itself. -/
def ModelM.update (env : Env) (m : ModelM) (msg : Msg) :
    ModelM × Option Cmd :=
  match msg with
  | .pageLoaded tabID page url err =>
    (m.handlePageLoaded tabID page url err, none)
  | .feedLoaded tabID content title links err =>
    (m.handleFeedLoaded tabID content title links err, none)
  | .leaderTimeout =>
    if m.mode = .leader then
      (({ m with leaderVisible := false, mode := .normal
        }).statusSetMode "NORMAL", none)
    else (m, none)
  | .key k => m.handleKeyMsg env k

/-! ## Claims about the controller -/

/-- A concrete environment: no adapter intercepts, no stores, inert
text input. -/
def testEnv : Env :=
  { isRedditURL := fun _ => false, isGitHubURL := fun _ => false,
    bookmarksAvailable := false, bookmarkAdd := fun _ _ => false,
    bookmarksRender := ("", []),
    readLaterAvailable := false, readLaterAdd := fun _ _ => false,
    readLaterRender := ("", []),
    historyAvailable := false, themeSetOk := fun _ => false,
    themeListText := "", nextThemeName := "", currentThemeName := "",
    historySelected := none, typeKey := fun v _ => v }

/-- Run the event loop over a list of messages, discarding commands. -/
def stepAll (env : Env) (m : ModelM) (msgs : List Msg) : ModelM :=
  msgs.foldl (fun m msg => (m.update env msg).1) m

/-- The model after starting load L1 of `https://a.example` in the fresh
session (context id 0). -/
def staleModel0 : ModelM :=
  (newModel.loadPage testEnv "https://a.example" true).1

/-- … and then starting load L2 of `https://b.example` on the same tab:
L1's context 0 is cancelled, L2 runs under context 1. -/
def staleModel1 : ModelM :=
  (staleModel0.loadPage testEnv "https://b.example" true).1

/-- L1's eventual completion message: its cancelled fetch reports
`context canceled`. -/
def staleMsg : Msg :=
  (runFetchTask 1 "https://a.example" (.fetchError "context canceled")
    staleModel1.pageCache).1

/-- The model after the event loop processes L1's stale completion. -/
def staleModel2 : ModelM := (staleModel1.update testEnv staleMsg).1

/-- **C1.**  The failing trace evaluated on the code: with L2 in flight
(context 1) after superseding L1 (context 0, cancelled), L1's eventual
completion message is *applied*, not discarded — `handlePageLoaded`
validates only that the tab still exists.  The stale message renders the
error placeholder into the tab, retitles it "Error", and clears the
tab's cancellation handle, severing L2's cancel function. -/
theorem stale_load_applied :
    (lookupTS staleModel1.tabStates 1).map TabStateM.cancelFunc =
      some (some 1) ∧
    staleModel1.cancelled = [0] ∧
    (lookupTS staleModel2.tabStates 1).map TabStateM.viewportContent =
      some (errorPlaceholder "https://a.example" "context canceled") ∧
    staleModel2.tabBar.activeTab.map Tab.title = some "Error" ∧
    (lookupTS staleModel2.tabStates 1).map TabStateM.cancelFunc =
      some none := by
  refine ⟨?_, ?_, ?_, ?_, ?_⟩ <;> decide

/-- **C6.** In the generic page path the Page Cache is consulted before
any network access: a lookup hit makes `loadPage` return the cached
page as an immediate completion message — no fetch task, no adapter
task — with the entry promoted to most-recently-used; and the cache is
populated only by a successful fetch→extract→transform, keyed by the
final post-redirect location (failed loads leave it untouched). -/
theorem cache_before_network (env : Env) (m : ModelM) (url : String)
    (push : Bool) (tab : Tab) (ts : TabStateM) (page : RenderedPage)
    (cache' : List (String × RenderedPage))
    (hA : m.tabBar.activeTab = some tab)
    (hL : lookupTS m.tabStates tab.id = some ts)
    (hC : cacheGet m.pageCache url = (some page, cache')) :
    ((m.loadPage env url push).2 =
      some (.emitMsg (.pageLoaded tab.id (some page) url none)) ∧
     (m.loadPage env url push).1.pageCache = cache') ∧
    ((∀ tabID u e cache,
        (runFetchTask tabID u (.fetchError e) cache).2 = cache) ∧
     (∀ tabID u e cache,
        (runFetchTask tabID u (.extractError e) cache).2 = cache) ∧
     (∀ tabID u f p cache,
        runFetchTask tabID u (.success f p) cache =
          (.pageLoaded tabID (some p) f none, cacheAdd cache f p))) := by
  refine ⟨?_, fun _ _ _ _ => rfl, fun _ _ _ _ => rfl, fun _ _ _ _ _ => rfl⟩
  unfold ModelM.loadPage
  rw [hA]
  simp only [hL]
  cases hc : ts.cancelFunc with
  | none =>
    simp only [hc, hC]
    exact ⟨trivial, trivial⟩
  | some c =>
    simp only [hc]
    have hC' : cacheGet
        ({ m with cancelled := c :: m.cancelled } : ModelM).pageCache url =
        (some page, cache') := hC
    simp only [hC']
    exact ⟨trivial, trivial⟩

/-- A page sitting in the cache for the witness. -/
def cachedPage0 : RenderedPage := { title := "T", content := "C", links := [] }

/-- A fresh session whose cache already holds `https://c.example`. -/
def modelWithCache : ModelM :=
  { newModel with pageCache := [("https://c.example", cachedPage0)] }

/-- Witness for `cache_before_network` at a concrete cached location. -/
theorem cache_before_network_witness :
    (modelWithCache.loadPage testEnv "https://c.example" true).2 =
      some (.emitMsg (.pageLoaded 1 (some cachedPage0) "https://c.example"
        none)) ∧
    (modelWithCache.loadPage testEnv "https://c.example" true).1.pageCache =
      [("https://c.example", cachedPage0)] :=
  (cache_before_network testEnv modelWithCache "https://c.example" true
    { id := 1, title := "New Tab", url := "" } newTabStateM cachedPage0
    [("https://c.example", cachedPage0)]
    (by decide) (by decide) (by decide)).1

lemma find_map_set : ∀ (s : List (Nat × TabStateM)) (id : Nat)
    (ts : TabStateM), (s.find? (fun p => p.1 = id)).isSome = true →
    (s.map (fun p => if p.1 = id then (id, ts) else p)).find?
      (fun p => p.1 = id) = some (id, ts)
  | [], _, _, h => by simp at h
  | p :: s', id, ts, h => by
    by_cases hp : p.1 = id
    · simp [hp]
    · rw [List.find?_cons_of_neg _ (by simpa using hp)] at h
      simp only [List.map_cons, if_neg hp]
      rw [List.find?_cons_of_neg _ (by simpa using hp)]
      exact find_map_set s' id ts h

lemma find_append_single : ∀ (s : List (Nat × TabStateM)) (id : Nat)
    (ts : TabStateM), s.find? (fun p => p.1 = id) = none →
    (s ++ [(id, ts)]).find? (fun p => p.1 = id) = some (id, ts)
  | [], _, _, _ => by simp
  | p :: s', id, ts, h => by
    by_cases hp : p.1 = id
    · rw [List.find?_cons_of_pos _ (by simpa using hp)] at h
      simp at h
    · rw [List.find?_cons_of_neg _ (by simpa using hp)] at h
      simp only [List.cons_append]
      rw [List.find?_cons_of_neg _ (by simpa using hp)]
      exact find_append_single s' id ts h

lemma lookupTS_setTS (s : List (Nat × TabStateM)) (id : Nat)
    (ts : TabStateM) : lookupTS (setTS s id ts) id = some ts := by
  unfold setTS
  split
  · rename_i h
    unfold lookupTS
    rw [find_map_set s id ts h]
  · rename_i h
    unfold lookupTS
    rw [find_append_single s id ts (by
      cases hf : s.find? (fun p => p.1 = id) with
      | none => rfl
      | some v => rw [hf] at h; simp at h)]

lemma activeTab_setTitle (tb : TabBar) (s : String) :
    (tb.setActiveTitle s).activeTab =
      tb.activeTab.map (fun t => { t with title := s }) := by
  unfold TabBar.setActiveTitle TabBar.activeTab
  cases h : tb.tabs.get? tb.active with
  | none =>
    simp [h]
    exact List.get?_eq_none.mp h
  | some t =>
    have hlen : tb.active < tb.tabs.length := by
      by_contra hge
      rw [List.get?_eq_none.mpr (by omega)] at h
      exact Option.noConfusion h
    simp only [h, Option.map_some]
    rw [List.get?_eq_getElem?, List.getElem?_set_self hlen]
    rfl

/-- **C9.** When a load completes with an error for a tab that still
exists, the controller renders the error placeholder into that tab's
viewport and sets the tab title to "Error", but leaves the tab's stored
page and its ancillary feed links unchanged — so follow-mode link
resolution afterwards still resolves indices against the links of the
previously loaded page. -/
theorem error_keeps_page (m : ModelM) (tabID : Nat) (url e : String)
    (page? : Option RenderedPage) (ts : TabStateM)
    (h : lookupTS m.tabStates tabID = some ts) :
    (lookupTS (m.handlePageLoaded tabID page? url (some e)).tabStates
        tabID =
      some { ts with loading := false, cancelFunc := none,
                     viewportContent := errorPlaceholder url e }) ∧
    ((m.handlePageLoaded tabID page? url (some e)).tabBar =
      m.tabBar.setActiveTitle "Error") ∧
    (∀ (env : Env) (s : String) (num : Int) (pg : RenderedPage)
        (link : Link) (tab : Tab),
      m.tabBar.activeTab = some tab → tab.id = tabID →
      ts.page = some pg →
      goAtoi (goTrimSpace s) = some num →
      pg.links.find? (fun l => (l.index : Int) = num) = some link →
      (m.handlePageLoaded tabID page? url (some e)).followLink env s =
        (m.handlePageLoaded tabID page? url (some e)).navigateTo env
          link.url) := by
  have hm' : m.handlePageLoaded tabID page? url (some e) =
      { m with
        statusBar := { m.statusBar with
          loading := false
          message := "Error: " ++ e },
        tabStates := setTS m.tabStates tabID
          { ts with loading := false, cancelFunc := none,
                    viewportContent := errorPlaceholder url e },
        tabBar := m.tabBar.setActiveTitle "Error" } := by
    unfold ModelM.handlePageLoaded
    rw [h]
  refine ⟨?_, ?_, ?_⟩
  · rw [hm']
    exact lookupTS_setTS m.tabStates tabID _
  · rw [hm']
  · intro env s num pg link tab hA hid hpg hparse hfind
    rw [hm']
    unfold ModelM.followLink
    simp only [activeTab_setTitle, hA, Option.map_some', hid,
      lookupTS_setTS, hpg, hparse, hfind]

/-- The page loaded before the failing load, for the witness. -/
def pageW : RenderedPage :=
  { title := "P", content := "body",
    links := [{ index := 1, text := "x", url := "https://x.example" }] }

/-- A session whose single tab holds `pageW`. -/
def modelW : ModelM :=
  { newModel with
    tabStates := [(1, { newTabStateM with page := some pageW })] }

/-- Witness for `error_keeps_page` at a concrete failed load over
`modelW`, following link 1 afterwards. -/
theorem error_keeps_page_witness :
    (lookupTS (modelW.handlePageLoaded 1 none "https://bad.example"
        (some "boom")).tabStates 1 =
      some { ({ newTabStateM with page := some pageW }) with
             loading := false, cancelFunc := none,
             viewportContent :=
               errorPlaceholder "https://bad.example" "boom" }) ∧
    ((modelW.handlePageLoaded 1 none "https://bad.example"
        (some "boom")).tabBar = modelW.tabBar.setActiveTitle "Error") ∧
    ((modelW.handlePageLoaded 1 none "https://bad.example"
        (some "boom")).followLink testEnv "1" =
      (modelW.handlePageLoaded 1 none "https://bad.example"
        (some "boom")).navigateTo testEnv "https://x.example") := by
  obtain ⟨w1, w2, w3⟩ := error_keeps_page modelW 1 "https://bad.example"
    "boom" none { newTabStateM with page := some pageW } (by decide)
  refine ⟨w1, w2, ?_⟩
  have := w3 testEnv "1" 1 pageW
    { index := 1, text := "x", url := "https://x.example" }
    { id := 1, title := "New Tab", url := "" }
    (by decide) (by decide) (by decide) (by decide) (by decide)
  exact this

/-! ### Leader mode and its timeout (claim C5)

Entering Leader schedules `tea.Tick(2s)`; nothing ever cancels that
timer.  The timeout message is merely *guarded*: it only acts when the
mode is still Leader when it fires.  A stale timer from an earlier
Leader entry can therefore dismiss a re-entered overlay. -/

lemma loadPage_mode (env : Env) (m : ModelM) (url : String) (p : Bool) :
    (m.loadPage env url p).1.mode = m.mode := by
  unfold ModelM.loadPage
  dsimp only
  repeat' split
  all_goals rfl

lemma loadPage_leaderVisible (env : Env) (m : ModelM) (url : String)
    (p : Bool) : (m.loadPage env url p).1.leaderVisible = m.leaderVisible := by
  unfold ModelM.loadPage
  dsimp only
  repeat' split
  all_goals rfl

lemma syncStatusBar_mode (m : ModelM) : m.syncStatusBar.mode = m.mode := by
  unfold ModelM.syncStatusBar
  repeat' split
  all_goals rfl

lemma syncStatusBar_leaderVisible (m : ModelM) :
    m.syncStatusBar.leaderVisible = m.leaderVisible := by
  unfold ModelM.syncStatusBar
  repeat' split
  all_goals rfl

lemma syncTabUI_mode (m : ModelM) : m.syncTabUI.mode = m.mode := by
  unfold ModelM.syncTabUI
  split <;> rw [syncStatusBar_mode]

lemma syncTabUI_leaderVisible (m : ModelM) :
    m.syncTabUI.leaderVisible = m.leaderVisible := by
  unfold ModelM.syncTabUI
  split <;> rw [syncStatusBar_leaderVisible]

lemma showHelp_mode (m : ModelM) : m.showHelp.mode = m.mode := by
  unfold ModelM.showHelp
  repeat' split
  all_goals rfl

lemma showHelp_leaderVisible (m : ModelM) :
    m.showHelp.leaderVisible = m.leaderVisible := by
  unfold ModelM.showHelp
  repeat' split
  all_goals rfl

lemma cycleTheme_mode (env : Env) (m : ModelM) :
    (m.cycleTheme env).1.mode = m.mode := by
  unfold ModelM.cycleTheme
  repeat' split
  all_goals rfl

lemma cycleTheme_leaderVisible (env : Env) (m : ModelM) :
    (m.cycleTheme env).1.leaderVisible = m.leaderVisible := by
  unfold ModelM.cycleTheme
  repeat' split
  all_goals rfl

lemma exec_bookmarks_facts (env : Env) (m : ModelM) :
    (m.executeCommand env "bookmarks").1.leaderVisible = m.leaderVisible ∧
    (m.executeCommand env "bookmarks").1.mode = m.mode := by
  unfold ModelM.executeCommand
  rw [show goFields "bookmarks" = ["bookmarks"] from by decide]
  dsimp only
  repeat rw [if_neg (by decide)]
  rw [if_pos (by decide)]
  repeat' split
  all_goals simp [ModelM.statusSetMessage, ModelM.statusSetTitle,
    ModelM.statusSetLinkCount]

lemma exec_readlater_facts (env : Env) (m : ModelM) :
    (m.executeCommand env "readlater").1.leaderVisible = m.leaderVisible ∧
    (m.executeCommand env "readlater").1.mode = m.mode := by
  unfold ModelM.executeCommand
  rw [show goFields "readlater" = ["readlater"] from by decide]
  dsimp only
  repeat rw [if_neg (by decide)]
  rw [if_pos (by decide)]
  repeat' split
  all_goals simp [ModelM.statusSetMessage, ModelM.statusSetTitle,
    ModelM.statusSetLinkCount]

lemma leaderMode_state (env : Env) (m : ModelM) (k : String) :
    (m.handleLeaderMode env k).1.mode ≠ .leader ∧
    (m.handleLeaderMode env k).1.leaderVisible = false := by
  unfold ModelM.handleLeaderMode
  dsimp only
  by_cases h1 : k = "o"
  · rw [if_pos h1]
    refine ⟨?_, ?_⟩ <;> (repeat' split) <;>
      simp [loadPage_mode, loadPage_leaderVisible, syncTabUI_mode,
        syncTabUI_leaderVisible, showHelp_mode, showHelp_leaderVisible,
        cycleTheme_mode, cycleTheme_leaderVisible, ModelM.statusSetMessage,
        ModelM.statusSetLoading, ModelM.statusSetMode]
  rw [if_neg h1]
  by_cases h2 : k = "b"
  · rw [if_pos h2]
    refine ⟨?_, ?_⟩ <;> (repeat' split) <;>
      simp [loadPage_mode, loadPage_leaderVisible, syncTabUI_mode,
        syncTabUI_leaderVisible, showHelp_mode, showHelp_leaderVisible,
        cycleTheme_mode, cycleTheme_leaderVisible, ModelM.statusSetMessage,
        ModelM.statusSetLoading, ModelM.statusSetMode]
  rw [if_neg h2]
  by_cases h3 : k = "f"
  · rw [if_pos h3]
    refine ⟨?_, ?_⟩ <;> (repeat' split) <;>
      simp [loadPage_mode, loadPage_leaderVisible, syncTabUI_mode,
        syncTabUI_leaderVisible, showHelp_mode, showHelp_leaderVisible,
        cycleTheme_mode, cycleTheme_leaderVisible, ModelM.statusSetMessage,
        ModelM.statusSetLoading, ModelM.statusSetMode]
  rw [if_neg h3]
  by_cases h4 : k = "l"
  · rw [if_pos h4]
    refine ⟨?_, ?_⟩ <;> (repeat' split) <;>
      simp [loadPage_mode, loadPage_leaderVisible, syncTabUI_mode,
        syncTabUI_leaderVisible, showHelp_mode, showHelp_leaderVisible,
        cycleTheme_mode, cycleTheme_leaderVisible, ModelM.statusSetMessage,
        ModelM.statusSetLoading, ModelM.statusSetMode]
  rw [if_neg h4]
  by_cases h5 : k = "r"
  · rw [if_pos h5]
    refine ⟨?_, ?_⟩ <;> (repeat' split) <;>
      simp [loadPage_mode, loadPage_leaderVisible, syncTabUI_mode,
        syncTabUI_leaderVisible, showHelp_mode, showHelp_leaderVisible,
        cycleTheme_mode, cycleTheme_leaderVisible, ModelM.statusSetMessage,
        ModelM.statusSetLoading, ModelM.statusSetMode]
  rw [if_neg h5]
  by_cases h6 : k = "t"
  · rw [if_pos h6]
    refine ⟨?_, ?_⟩ <;> (repeat' split) <;>
      simp [loadPage_mode, loadPage_leaderVisible, syncTabUI_mode,
        syncTabUI_leaderVisible, showHelp_mode, showHelp_leaderVisible,
        cycleTheme_mode, cycleTheme_leaderVisible, ModelM.statusSetMessage,
        ModelM.statusSetLoading, ModelM.statusSetMode]
  rw [if_neg h6]
  by_cases h7 : k = "w"
  · rw [if_pos h7]
    refine ⟨?_, ?_⟩ <;> (repeat' split) <;>
      simp [loadPage_mode, loadPage_leaderVisible, syncTabUI_mode,
        syncTabUI_leaderVisible, showHelp_mode, showHelp_leaderVisible,
        cycleTheme_mode, cycleTheme_leaderVisible, ModelM.statusSetMessage,
        ModelM.statusSetLoading, ModelM.statusSetMode]
  rw [if_neg h7]
  by_cases h8 : k = "n"
  · rw [if_pos h8]
    refine ⟨?_, ?_⟩ <;> (repeat' split) <;>
      simp [loadPage_mode, loadPage_leaderVisible, syncTabUI_mode,
        syncTabUI_leaderVisible, showHelp_mode, showHelp_leaderVisible,
        cycleTheme_mode, cycleTheme_leaderVisible, ModelM.statusSetMessage,
        ModelM.statusSetLoading, ModelM.statusSetMode]
  rw [if_neg h8]
  by_cases h9 : k = "p"
  · rw [if_pos h9]
    refine ⟨?_, ?_⟩ <;> (repeat' split) <;>
      simp [loadPage_mode, loadPage_leaderVisible, syncTabUI_mode,
        syncTabUI_leaderVisible, showHelp_mode, showHelp_leaderVisible,
        cycleTheme_mode, cycleTheme_leaderVisible, ModelM.statusSetMessage,
        ModelM.statusSetLoading, ModelM.statusSetMode]
  rw [if_neg h9]
  by_cases h10 : k = "h"
  · rw [if_pos h10]
    refine ⟨?_, ?_⟩ <;> (repeat' split) <;>
      simp [loadPage_mode, loadPage_leaderVisible, syncTabUI_mode,
        syncTabUI_leaderVisible, showHelp_mode, showHelp_leaderVisible,
        cycleTheme_mode, cycleTheme_leaderVisible, ModelM.statusSetMessage,
        ModelM.statusSetLoading, ModelM.statusSetMode]
  rw [if_neg h10]
  by_cases h11 : k = "e"
  · rw [if_pos h11]
    refine ⟨?_, ?_⟩ <;> (repeat' split) <;>
      simp [loadPage_mode, loadPage_leaderVisible, syncTabUI_mode,
        syncTabUI_leaderVisible, showHelp_mode, showHelp_leaderVisible,
        cycleTheme_mode, cycleTheme_leaderVisible, ModelM.statusSetMessage,
        ModelM.statusSetLoading, ModelM.statusSetMode]
  rw [if_neg h11]
  by_cases h12 : k = "s"
  · rw [if_pos h12]
    refine ⟨?_, ?_⟩ <;> (repeat' split) <;>
      simp [loadPage_mode, loadPage_leaderVisible, syncTabUI_mode,
        syncTabUI_leaderVisible, showHelp_mode, showHelp_leaderVisible,
        cycleTheme_mode, cycleTheme_leaderVisible, ModelM.statusSetMessage,
        ModelM.statusSetLoading, ModelM.statusSetMode]
  rw [if_neg h12]
  by_cases h13 : k = "a"
  · rw [if_pos h13]
    refine ⟨?_, ?_⟩ <;> (repeat' split) <;>
      simp [loadPage_mode, loadPage_leaderVisible, syncTabUI_mode,
        syncTabUI_leaderVisible, showHelp_mode, showHelp_leaderVisible,
        cycleTheme_mode, cycleTheme_leaderVisible, ModelM.statusSetMessage,
        ModelM.statusSetLoading, ModelM.statusSetMode]
  rw [if_neg h13]
  by_cases h14 : k = "B"
  · rw [if_pos h14]
    exact ⟨by rw [(exec_bookmarks_facts env _).2]; simp [ModelM.statusSetMode],
      by rw [(exec_bookmarks_facts env _).1]; simp [ModelM.statusSetMode]⟩
  rw [if_neg h14]
  by_cases h15 : k = "R"
  · rw [if_pos h15]
    exact ⟨by rw [(exec_readlater_facts env _).2]; simp [ModelM.statusSetMode],
      by rw [(exec_readlater_facts env _).1]; simp [ModelM.statusSetMode]⟩
  rw [if_neg h15]
  by_cases h16 : k = "/"
  · rw [if_pos h16]
    refine ⟨?_, ?_⟩ <;> (repeat' split) <;>
      simp [loadPage_mode, loadPage_leaderVisible, syncTabUI_mode,
        syncTabUI_leaderVisible, showHelp_mode, showHelp_leaderVisible,
        cycleTheme_mode, cycleTheme_leaderVisible, ModelM.statusSetMessage,
        ModelM.statusSetLoading, ModelM.statusSetMode]
  rw [if_neg h16]
  by_cases h17 : k = ":"
  · rw [if_pos h17]
    refine ⟨?_, ?_⟩ <;> (repeat' split) <;>
      simp [loadPage_mode, loadPage_leaderVisible, syncTabUI_mode,
        syncTabUI_leaderVisible, showHelp_mode, showHelp_leaderVisible,
        cycleTheme_mode, cycleTheme_leaderVisible, ModelM.statusSetMessage,
        ModelM.statusSetLoading, ModelM.statusSetMode]
  rw [if_neg h17]
  by_cases h18 : k = "H"
  · rw [if_pos h18]
    refine ⟨?_, ?_⟩ <;> (repeat' split) <;>
      simp [loadPage_mode, loadPage_leaderVisible, syncTabUI_mode,
        syncTabUI_leaderVisible, showHelp_mode, showHelp_leaderVisible,
        cycleTheme_mode, cycleTheme_leaderVisible, ModelM.statusSetMessage,
        ModelM.statusSetLoading, ModelM.statusSetMode]
  rw [if_neg h18]
  by_cases h19 : k = "v" ∨ k = "x"
  · rw [if_pos h19]
    refine ⟨?_, ?_⟩ <;> (repeat' split) <;>
      simp [loadPage_mode, loadPage_leaderVisible, syncTabUI_mode,
        syncTabUI_leaderVisible, showHelp_mode, showHelp_leaderVisible,
        cycleTheme_mode, cycleTheme_leaderVisible, ModelM.statusSetMessage,
        ModelM.statusSetLoading, ModelM.statusSetMode]
  rw [if_neg h19]
  by_cases h20 : k = "T"
  · rw [if_pos h20]
    refine ⟨?_, ?_⟩ <;> (repeat' split) <;>
      simp [loadPage_mode, loadPage_leaderVisible, syncTabUI_mode,
        syncTabUI_leaderVisible, showHelp_mode, showHelp_leaderVisible,
        cycleTheme_mode, cycleTheme_leaderVisible, ModelM.statusSetMessage,
        ModelM.statusSetLoading, ModelM.statusSetMode]
  rw [if_neg h20]
  by_cases h21 : k = "?"
  · rw [if_pos h21]
    refine ⟨?_, ?_⟩ <;> (repeat' split) <;>
      simp [loadPage_mode, loadPage_leaderVisible, syncTabUI_mode,
        syncTabUI_leaderVisible, showHelp_mode, showHelp_leaderVisible,
        cycleTheme_mode, cycleTheme_leaderVisible, ModelM.statusSetMessage,
        ModelM.statusSetLoading, ModelM.statusSetMode]
  rw [if_neg h21]
  refine ⟨?_, ?_⟩ <;> (repeat' split) <;>
      simp [loadPage_mode, loadPage_leaderVisible, syncTabUI_mode,
        syncTabUI_leaderVisible, showHelp_mode, showHelp_leaderVisible,
        cycleTheme_mode, cycleTheme_leaderVisible, ModelM.statusSetMessage,
        ModelM.statusSetLoading, ModelM.statusSetMode]
/-- The session after `Space` (enter Leader, schedule tick T1 firing at
2 s), `n` (at ~1 s: Leader dispatch, back to Normal; T1 keeps running),
and `Space` again (at ~1.5 s: Leader re-entered, tick T2 scheduled). -/
def leaderReentered : ModelM :=
  stepAll testEnv newModel [.key " ", .key "n", .key " "]

/-- **C5, counterexample.** The keypress does not cancel the pending
2-second timer: after re-entering Leader, delivering the *first* tick's
timeout message (T1 fires at 2 s, before T2's own 2 s elapse) finds
`mode = Leader` and dismisses the freshly re-entered overlay —
contradicting the claim that the consumed key cancels the pending
timeout so that no timeout effect fires afterward. -/
theorem stale_leader_timer_counterexample :
    leaderReentered.mode = .leader ∧
    leaderReentered.leaderVisible = true ∧
    (newModel.update testEnv (.key " ")).2 = some .tickLeader ∧
    (leaderReentered.update testEnv .leaderTimeout).1.mode = .normal ∧
    (leaderReentered.update testEnv .leaderTimeout).1.leaderVisible =
      false := by
  refine ⟨?_, ?_, ?_, ?_, ?_⟩ <;> decide

/-- **C5, amended.** Leader auto-returns to Normal after the fixed
2-second timeout when no key arrives; a key arriving in Leader is
consumed by Leader's dispatch, which hides the overlay immediately and
never stays in Leader (bound actions may enter their own mode).  The
pending timeout is *not* cancelled by the key: its message is a no-op
exactly when Leader is no longer the active mode when it fires — so no
timeout effect is observable after a key in the ordinary course, but a
stale timer from an earlier Leader entry does dismiss a re-entered
Leader overlay (see the counterexample). -/
theorem leader_timeout_semantics :
    (∀ (env : Env) (m : ModelM), m.mode = .leader →
      (m.update env .leaderTimeout).1.mode = .normal ∧
      (m.update env .leaderTimeout).1.leaderVisible = false) ∧
    (∀ (env : Env) (m : ModelM), m.mode ≠ .leader →
      m.update env .leaderTimeout = (m, none)) ∧
    (∀ (env : Env) (m : ModelM) (k : String), m.mode = .leader →
      k ≠ "ctrl+c" →
      (m.update env (.key k)).1.mode ≠ .leader ∧
      (m.update env (.key k)).1.leaderVisible = false) ∧
    (∀ (env : Env) (m : ModelM), m.mode = .normal →
      (m.update env (.key " ")).1.mode = .leader ∧
      (m.update env (.key " ")).1.leaderVisible = true ∧
      (m.update env (.key " ")).2 = some .tickLeader) := by
  refine ⟨?_, ?_, ?_, ?_⟩
  · intro env m hm
    unfold ModelM.update
    dsimp only
    rw [if_pos hm]
    exact ⟨rfl, rfl⟩
  · intro env m hm
    unfold ModelM.update
    dsimp only
    rw [if_neg hm]
  · intro env m k hm hk
    unfold ModelM.update ModelM.handleKeyMsg
    dsimp only
    rw [if_neg hk, hm]
    dsimp only
    exact leaderMode_state env m k
  · intro env m hm
    unfold ModelM.update ModelM.handleKeyMsg
    dsimp only
    rw [if_neg (by decide : ¬(" " : String) = "ctrl+c"), hm]
    dsimp only
    unfold ModelM.handleNormalMode
    dsimp only
    rw [if_neg (by decide : ¬(" " : String) = "q"),
      if_pos (rfl : (" " : String) = " ")]
    exact ⟨rfl, rfl, rfl⟩

/-- Witness for `leader_timeout_semantics`: every hypothesis discharged
at the concrete sessions `leaderReentered` (Leader active) and the fresh
session (Normal active), with the key `n`. -/
theorem leader_timeout_semantics_witness :
    ((leaderReentered.update testEnv .leaderTimeout).1.mode = .normal ∧
     (leaderReentered.update testEnv .leaderTimeout).1.leaderVisible =
       false) ∧
    (newModel.update testEnv .leaderTimeout = (newModel, none)) ∧
    ((leaderReentered.update testEnv (.key "n")).1.mode ≠ .leader ∧
     (leaderReentered.update testEnv (.key "n")).1.leaderVisible = false) ∧
    ((newModel.update testEnv (.key " ")).1.mode = .leader ∧
     (newModel.update testEnv (.key " ")).1.leaderVisible = true ∧
     (newModel.update testEnv (.key " ")).2 = some .tickLeader) := by
  obtain ⟨w1, w2, w3, w4⟩ := leader_timeout_semantics
  exact ⟨w1 testEnv leaderReentered (by decide),
    w2 testEnv newModel (by decide),
    w3 testEnv leaderReentered "n" (by decide) (by decide),
    w4 testEnv newModel (by decide)⟩

end Tsurf
